import Mathlib

/-!
# fabric-loom native platform: `getPidHoldingFileLock` and `RaiiWithInvalidValue`

A shallow embedding of `src/native/src/main/headers/Raii.hpp` and
`src/native/src/main/cpp/LoomNativePlatform.cpp`.

* The Windows services the code calls (`RmStartSession`, `RmRegisterResources`,
  `RmGetList`, `RmEndSession`, `OpenProcess`, `GetProcessTimes`, `CloseHandle`,
  `GetLastError`) are a parameter: a `Platform σ` is an arbitrary deterministic
  machine over an arbitrary state type `σ`, so every behaviour of the services
  (including answers that change from call to call) is covered.
* Every call made to the platform is appended, with its arguments and results,
  to a trace of `Event`s; the trace is what the statements about "what the code
  called, how often and in which order" refer to.
* `DWORD` / `UINT` / `HANDLE` values are natural numbers; the one place where
  the code computes with them (`2 * nProcInfoNeeded`) is reduced modulo `2 ^ 32`,
  and the `DWORD → int` conversion of `push_back` is `toInt32`.
* The `do … while` loop has no bound of its own, so it is run with fuel;
  `none` means the fuel ran out.
* A C++ exception is the `Except.error` outcome; the destructors that stack
  unwinding runs are run explicitly at each exit.
* Memory allocation (`std::vector::resize`, `push_back`) is assumed to succeed.
-/

namespace Loom

/-! ## Raii.hpp -/

/-- The `Traits` template parameter of `RaiiWithInvalidValue`: the sentinel
`invalid_value` and the `close` operation, which acts on a world `ω`. -/
structure RaiiTraits (τ : Type) (ω : Type) where
  invalid_value : τ
  close : τ → ω → ω

/-- The class `RaiiWithInvalidValue<Traits>`: its only member is `value`. -/
structure RaiiWithInvalidValue {τ ω : Type} (Traits : RaiiTraits τ ω) where
  value : τ

namespace RaiiWithInvalidValue

variable {τ ω : Type} [DecidableEq τ] {Traits : RaiiTraits τ ω}

/-- `RaiiWithInvalidValue() noexcept : value{Traits::invalid_value} {}` -/
def ctorDefault (Traits : RaiiTraits τ ω) : RaiiWithInvalidValue Traits :=
  ⟨Traits.invalid_value⟩

/-- `explicit RaiiWithInvalidValue(type t) noexcept : value{t} {}` -/
def ctor (Traits : RaiiTraits τ ω) (t : τ) : RaiiWithInvalidValue Traits :=
  ⟨t⟩

/-- `bool is_valid() const noexcept { return value != Traits::invalid_value; }` -/
def is_valid (r : RaiiWithInvalidValue Traits) : Bool :=
  r.value != Traits.invalid_value

/-- `explicit operator bool() const noexcept { return is_valid(); }` -/
def toBool (r : RaiiWithInvalidValue Traits) : Bool :=
  r.is_valid

/-- `type get() const noexcept { return value; }` -/
def get (r : RaiiWithInvalidValue Traits) : τ :=
  r.value

/-- `~RaiiWithInvalidValue() { if (is_valid()) { Traits::close(value); } }` -/
def dtor (r : RaiiWithInvalidValue Traits) (w : ω) : ω :=
  if r.is_valid then Traits.close r.value w else w

end RaiiWithInvalidValue

/-- A traits bundle instrumented with a log: the same `invalid_value`, and a
`close` that performs the original `close` and records its argument. -/
def RaiiTraits.logged {τ ω : Type} (T : RaiiTraits τ ω) : RaiiTraits τ (ω × List τ) where
  invalid_value := T.invalid_value
  close := fun t w => (T.close t w.1, w.2 ++ [t])

/-- The whole life of a wrapper bound to `t`: construction, then destruction
(copying and moving are deleted, `is_valid` and `get` are `const`). -/
def RaiiWithInvalidValue.lifetime {τ ω : Type} [DecidableEq τ] (Traits : RaiiTraits τ ω)
    (t : τ) (w : ω) : ω :=
  (RaiiWithInvalidValue.ctor Traits t).dtor w

/-! ## Windows data and constants used by LoomNativePlatform.cpp -/

/-- `ERROR_SUCCESS` of winerror.h. -/
def ERROR_SUCCESS : Nat := 0

/-- `ERROR_MORE_DATA` of winerror.h. -/
def ERROR_MORE_DATA : Nat := 234

/-- `PROCESS_QUERY_LIMITED_INFORMATION` of winnt.h. -/
def PROCESS_QUERY_LIMITED_INFORMATION : Nat := 0x1000

/-- Number of values of a 32-bit `UINT` / `DWORD`. -/
def UINT_RANGE : Nat := 4294967296

/-- The Windows `FILETIME`: two `DWORD`s. -/
structure FILETIME where
  dwLowDateTime : Nat
  dwHighDateTime : Nat
  deriving DecidableEq, Repr, Inhabited

/-- The Windows `RM_UNIQUE_PROCESS`. -/
structure RM_UNIQUE_PROCESS where
  dwProcessId : Nat
  ProcessStartTime : FILETIME
  deriving DecidableEq, Repr, Inhabited

/-- The Windows `RM_PROCESS_INFO`; only the member `Process` is read by the code.
The default value is the value-initialised (all zero) element that
`std::vector::resize` appends. -/
structure RM_PROCESS_INFO where
  Process : RM_UNIQUE_PROCESS
  deriving DecidableEq, Repr, Inhabited

/-- The Windows `CompareFileTime`: `-1`, `0` or `1` as the first time is earlier
than, equal to or later than the second (high word first, then low word). -/
def CompareFileTime (a b : FILETIME) : Int :=
  if a.dwHighDateTime < b.dwHighDateTime then -1
  else if b.dwHighDateTime < a.dwHighDateTime then 1
  else if a.dwLowDateTime < b.dwLowDateTime then -1
  else if b.dwLowDateTime < a.dwLowDateTime then 1
  else 0

/-- Conversion of a `DWORD` to the 32-bit `int` element type of
`std::vector<int>` (two's complement), as done by `pids.push_back(dwProcessId)`
and by the `int ev` parameter of `std::system_error`. -/
def toInt32 (n : Nat) : Int :=
  if n % UINT_RANGE < 2147483648 then ((n % UINT_RANGE : Nat) : Int)
  else ((n % UINT_RANGE : Nat) : Int) - 4294967296

/-- A `std::filesystem::path`: its wide characters. -/
abbrev Path := List Nat

/-- What one `RmGetList` call hands back: the status, the two out-counters, the
entries it stored into the caller's array (from index 0) and the reboot reason. -/
structure GetListReply where
  dwError : Nat
  nProcInfoNeeded : Nat
  nProcInfo : Nat
  rgAffectedApps : List RM_PROCESS_INFO
  dwReason : Nat

/-- The platform services, as a deterministic machine over a state `σ`; each
call takes the current state and returns its results with the next state.
`RmStartSession s` returns the status and `dwSession`;
`RmRegisterResources s dwSession files` the status;
`RmGetList s dwSession nProcInfo rgpi` receives the offered capacity and the
caller's array; `OpenProcess s dwDesiredAccess dwProcessId` returns the handle,
0 for `NULL`; `GetProcessTimes s hProcess` returns the `BOOL` result and
`ftCreate`. -/
structure Platform (σ : Type) where
  RmStartSession : σ → (Nat × Nat) × σ
  RmRegisterResources : σ → Nat → List Path → Nat × σ
  RmGetList : σ → Nat → Nat → List RM_PROCESS_INFO → GetListReply × σ
  RmEndSession : σ → Nat → σ
  OpenProcess : σ → Nat → Nat → Nat × σ
  GetProcessTimes : σ → Nat → (Nat × FILETIME) × σ
  CloseHandle : σ → Nat → σ
  GetLastError : σ → Nat

/-- One call to the platform, with its arguments and results. For `RmGetList`
the last field is the caller's array as the call left it. -/
inductive Event where
  | RmStartSession (dwError dwSession : Nat)
  | RmRegisterResources (dwSession : Nat) (files : List Path) (dwError : Nat)
  | RmGetList (dwSession nProcInfoIn dwError nProcInfoNeeded nProcInfo : Nat)
      (rgAffectedApps : List RM_PROCESS_INFO)
  | RmEndSession (dwSession : Nat)
  | OpenProcess (dwProcessId hProcess : Nat)
  | GetProcessTimes (hProcess ok : Nat) (ftCreate : FILETIME)
  | CloseHandle (hProcess : Nat)
  deriving DecidableEq, Repr

/-- The platform state together with the calls made so far. -/
abbrev World (σ : Type) := σ × List Event

/-- The exception `std::system_error(lastError, std::system_category(), message)`. -/
structure system_error where
  code : Int
  what : String
  deriving DecidableEq, Repr

/-- `std::vector::resize`: keep the first `n` elements, append value-initialised
elements up to length `n`. -/
def resize (rgpi : List RM_PROCESS_INFO) (n : Nat) : List RM_PROCESS_INFO :=
  rgpi.take n ++ List.replicate (n - rgpi.length) default

/-- The caller's array after a service stored `written` into it from index 0:
the array keeps its length, entries not overwritten keep their value. -/
def store (rgpi written : List RM_PROCESS_INFO) : List RM_PROCESS_INFO :=
  (written ++ rgpi.drop written.length).take rgpi.length

/-! ## LoomNativePlatform.cpp -/

section
variable {σ : Type}

/-- `struct RmSessionRaiiTraits`: `invalid_value = 0`, `close` is `RmEndSession`. -/
def RmSessionRaiiTraits (P : Platform σ) : RaiiTraits Nat (World σ) where
  invalid_value := 0
  close := fun t w => (P.RmEndSession w.1 t, w.2 ++ [Event.RmEndSession t])

/-- `using RmSession = RaiiWithInvalidValue<RmSessionRaiiTraits>;` -/
abbrev RmSession (P : Platform σ) := RaiiWithInvalidValue (RmSessionRaiiTraits P)

/-- `struct ProcessRaiiTraits`: `invalid_value = nullptr`, `close` is `CloseHandle`. -/
def ProcessRaiiTraits (P : Platform σ) : RaiiTraits Nat (World σ) where
  invalid_value := 0
  close := fun t w => (P.CloseHandle w.1 t, w.2 ++ [Event.CloseHandle t])

/-- `using Process = RaiiWithInvalidValue<ProcessRaiiTraits>;` -/
abbrev Process (P : Platform σ) := RaiiWithInvalidValue (ProcessRaiiTraits P)

/-- `throwLastError`: the exception object built from `GetLastError()`. -/
def throwLastError (P : Platform σ) (message : String) (w : World σ) : system_error :=
  let lastError := P.GetLastError w.1
  ⟨toInt32 lastError, message⟩

/-- `createRmSession`. -/
def createRmSession (P : Platform σ) (w : World σ) :
    Except system_error (RmSession P) × World σ :=
  let r := P.RmStartSession w.1
  let w1 : World σ := (r.2, w.2 ++ [Event.RmStartSession r.1.1 r.1.2])
  if r.1.1 ≠ ERROR_SUCCESS then
    (Except.error (throwLastError P ("RmStartSession failed") w1), w1)
  else
    (Except.ok (RaiiWithInvalidValue.ctor (RmSessionRaiiTraits P) r.1.2), w1)

/-- The `do { … } while (dwError == ERROR_MORE_DATA);` loop of
`getPidHoldingFileLock`, lines 84-90. The arguments are the fuel, the current
`nProcInfoNeeded`, the vector `rgpi` and the world; the result is the final
`dwError`, the final `rgpi` and the world. -/
def rmGetListLoop (P : Platform σ) (session : RmSession P) :
    Nat → Nat → List RM_PROCESS_INFO → World σ →
      Option (Nat × List RM_PROCESS_INFO × World σ)
  | 0, _, _, _ => none
  | fuel + 1, nProcInfoNeeded, rgpi, w =>
    let nProcInfo := (2 * nProcInfoNeeded) % UINT_RANGE
    let rgpi1 := resize rgpi nProcInfo
    let r := P.RmGetList w.1 session.get nProcInfo rgpi1
    let rgpi2 := store rgpi1 r.1.rgAffectedApps
    let w1 : World σ := (r.2, w.2 ++ [Event.RmGetList session.get nProcInfo r.1.dwError
      r.1.nProcInfoNeeded r.1.nProcInfo rgpi2])
    if r.1.dwError = ERROR_MORE_DATA then
      rmGetListLoop P session fuel r.1.nProcInfoNeeded rgpi2 w1
    else
      some (r.1.dwError, rgpi2, w1)

/-- The body of the `for (const auto &info : rgpi)` loop, lines 97-108. -/
def verifyRecord (P : Platform σ) (info : RM_PROCESS_INFO) (w : World σ) (pids : List Int) :
    World σ × List Int :=
  let o := P.OpenProcess w.1 PROCESS_QUERY_LIMITED_INFORMATION info.Process.dwProcessId
  let process : Process P := RaiiWithInvalidValue.ctor (ProcessRaiiTraits P) o.1
  let w1 : World σ := (o.2, w.2 ++ [Event.OpenProcess info.Process.dwProcessId o.1])
  if process.toBool then
    let t := P.GetProcessTimes w1.1 process.get
    let w2 : World σ := (t.2, w1.2 ++ [Event.GetProcessTimes process.get t.1.1 t.1.2])
    if t.1.1 != 0 && CompareFileTime info.Process.ProcessStartTime t.1.2 == 0 then
      (process.dtor w2, pids ++ [toInt32 info.Process.dwProcessId])
    else
      (process.dtor w2, pids)
  else
    (process.dtor w1, pids)

/-- The `for (const auto &info : rgpi)` loop, lines 96-109. -/
def verifyLoop (P : Platform σ) : List RM_PROCESS_INFO → World σ → List Int →
    World σ × List Int
  | [], w, pids => (w, pids)
  | info :: rest, w, pids =>
    let r := verifyRecord P info w pids
    verifyLoop P rest r.1 r.2

/-- `std::vector<int> getPidHoldingFileLock(const std::filesystem::path &file)`,
run from platform state `s` with an empty trace. The result is `none` when the
fuel of the enumeration loop runs out; otherwise the returned vector or the
exception thrown, with the final platform state and the trace of the call. -/
def getPidHoldingFileLock (P : Platform σ) (fuel : Nat) (file : Path) (s : σ) :
    Option (Except system_error (List Int) × World σ) :=
  let pids : List Int := []
  match createRmSession P (s, []) with
  | (Except.error e, w) => some (Except.error e, w)
  | (Except.ok session, w) =>
    let r := P.RmRegisterResources w.1 session.get [file]
    let w1 : World σ := (r.2, w.2 ++ [Event.RmRegisterResources session.get [file] r.1])
    if r.1 ≠ ERROR_SUCCESS then
      some (Except.error (throwLastError P ("RmRegisterResources failed") w1), session.dtor w1)
    else
      match rmGetListLoop P session fuel 64 [] w1 with
      | none => none
      | some (dwError, rgpi, w2) =>
        if dwError ≠ ERROR_SUCCESS then
          some (Except.error (throwLastError P ("RmGetList failed") w2), session.dtor w2)
        else
          let v := verifyLoop P rgpi w2 pids
          some (Except.ok v.2, session.dtor v.1)

end

/-- The check of `testGetPidHoldingFileLock`:
`std::find(pids.begin(), pids.end(), currentPid) != pids.end()`, where each
`int` element is compared with the `DWORD` `currentPid` after the usual
conversion to unsigned. -/
def containsPid (pids : List Int) (currentPid : Nat) : Bool :=
  pids.any (fun x => (x % 4294967296).toNat == currentPid)

/-! ## Reading a trace -/

/-- The events of the destructor of an `RmSession` holding `d`. -/
def closeSession (d : Nat) : List Event :=
  if d = 0 then [] else [Event.RmEndSession d]

/-- One run of the body of the verification loop, as seen from outside: the
array element it ran on, the handle `OpenProcess` returned, and, when that
handle is not null, what `GetProcessTimes` answered. -/
structure Visit where
  info : RM_PROCESS_INFO
  hProcess : Nat
  ok : Nat
  ftCreate : FILETIME

/-- The platform calls of one visit. -/
def Visit.events (v : Visit) : List Event :=
  if v.hProcess = 0 then [Event.OpenProcess v.info.Process.dwProcessId 0]
  else [Event.OpenProcess v.info.Process.dwProcessId v.hProcess,
        Event.GetProcessTimes v.hProcess v.ok v.ftCreate,
        Event.CloseHandle v.hProcess]

/-- The process was opened, its times were obtained, and the creation time is
exactly the `ProcessStartTime` of the element. -/
def Visit.matched (v : Visit) : Bool :=
  v.hProcess != 0 && v.ok != 0 && v.ftCreate == v.info.Process.ProcessStartTime

/-- The answers recorded in the visit are the platform's answers, at some
platform state, to the two consecutive calls of the loop body. -/
def Visit.answeredBy {σ : Type} (P : Platform σ) (v : Visit) : Prop :=
  ∃ s : σ,
    (P.OpenProcess s PROCESS_QUERY_LIMITED_INFORMATION v.info.Process.dwProcessId).1
      = v.hProcess ∧
    (v.hProcess ≠ 0 →
      (P.GetProcessTimes
        (P.OpenProcess s PROCESS_QUERY_LIMITED_INFORMATION v.info.Process.dwProcessId).2
        v.hProcess).1 = (v.ok, v.ftCreate))

/-- The `RmGetList` events of one run of the enumeration loop on session `d`
that starts with `nProcInfoNeeded = n` and ends with status `dwError` and
array `rgpi`: every call offers `2 * n mod 2 ^ 32` entries for the current `n`
and an array of that length, every call but the last is answered
`ERROR_MORE_DATA`, and a call answered `ERROR_MORE_DATA` with needed-count `m`
is followed by the calls of a run that starts with `m`. -/
inductive GetListRun (d : Nat) : Nat → List Event → Nat → List RM_PROCESS_INFO → Prop
  | last (n dwError needed written : Nat) (rgpi : List RM_PROCESS_INFO) :
      dwError ≠ ERROR_MORE_DATA → rgpi.length = (2 * n) % UINT_RANGE →
      GetListRun d n
        [Event.RmGetList d ((2 * n) % UINT_RANGE) dwError needed written rgpi] dwError rgpi
  | more (n needed written : Nat) (buf : List RM_PROCESS_INFO) (rest : List Event)
      (dwError : Nat) (rgpi : List RM_PROCESS_INFO) :
      buf.length = (2 * n) % UINT_RANGE → GetListRun d needed rest dwError rgpi →
      GetListRun d n
        (Event.RmGetList d ((2 * n) % UINT_RANGE) ERROR_MORE_DATA needed written buf :: rest)
        dwError rgpi

/-- The four ways a call of `getPidHoldingFileLock file` can complete, with the
trace of each: session start failed; registration failed; the enumeration ended
with a failure status; or the verification loop ran over the final array
and the vector was returned. -/
inductive Run {σ : Type} (P : Platform σ) (file : Path) :
    Except system_error (List Int) → List Event → Prop
  | startFailed (st d : Nat) (e : system_error) : st ≠ ERROR_SUCCESS →
      Run P file (Except.error e) [Event.RmStartSession st d]
  | registerFailed (d rs : Nat) (e : system_error) : rs ≠ ERROR_SUCCESS →
      Run P file (Except.error e)
        ([Event.RmStartSession ERROR_SUCCESS d, Event.RmRegisterResources d [file] rs]
          ++ closeSession d)
  | getListFailed (d dwError : Nat) (gl : List Event) (rgpi : List RM_PROCESS_INFO)
      (e : system_error) : GetListRun d 64 gl dwError rgpi → dwError ≠ ERROR_SUCCESS →
      Run P file (Except.error e)
        ([Event.RmStartSession ERROR_SUCCESS d,
          Event.RmRegisterResources d [file] ERROR_SUCCESS] ++ gl ++ closeSession d)
  | returned (d : Nat) (gl : List Event) (visits : List Visit) :
      GetListRun d 64 gl ERROR_SUCCESS (visits.map Visit.info) →
      (∀ v ∈ visits, v.answeredBy P) →
      Run P file
        (Except.ok ((visits.filter Visit.matched).map
          (fun v => toInt32 v.info.Process.dwProcessId)))
        ([Event.RmStartSession ERROR_SUCCESS d,
          Event.RmRegisterResources d [file] ERROR_SUCCESS] ++ gl
          ++ visits.flatMap Visit.events ++ closeSession d)

/-- What the trace shows of one `RmGetList` call: the capacity offered, the
status, the needed-count and the written-count reported, and the length of the
caller's array. -/
structure GetListCall where
  nProcInfoIn : Nat
  dwError : Nat
  nProcInfoNeeded : Nat
  nProcInfo : Nat
  arrayLength : Nat
  deriving DecidableEq, Repr

/-- The `RmGetList` call of an event, if it is one. -/
def getListCall : Event → Option GetListCall
  | Event.RmGetList _ nProcInfoIn dwError nProcInfoNeeded nProcInfo rgAffectedApps =>
    some ⟨nProcInfoIn, dwError, nProcInfoNeeded, nProcInfo, rgAffectedApps.length⟩
  | _ => none

/-- The `RmGetList` calls of a trace, in order. -/
def getListCalls (tr : List Event) : List GetListCall :=
  tr.filterMap getListCall

/-- The number of `RmGetList` calls of a trace answered `ERROR_MORE_DATA`. -/
def moreDataReplies (tr : List Event) : Nat :=
  (getListCalls tr).countP (fun c => c.dwError == ERROR_MORE_DATA)

/-! ## Concrete platforms -/

/-- A scripted platform: fixed answers of session start and registration, the
replies of the successive `RmGetList` calls (success with nothing written once
the list is used up), and `OpenProcess` / `GetProcessTimes` as functions of the
process identifier / the handle. -/
structure Script where
  start : Nat × Nat
  register : Nat
  getList : List GetListReply
  openProcess : Nat → Nat
  processTimes : Nat → Nat × FILETIME
  lastError : Nat

/-- The platform of a script; its state counts the `RmGetList` calls made. -/
def Script.platform (c : Script) : Platform Nat where
  RmStartSession := fun s => (c.start, s)
  RmRegisterResources := fun s _ _ => (c.register, s)
  RmGetList := fun s _ _ _ => (c.getList.getD s ⟨ERROR_SUCCESS, 0, 0, [], 0⟩, s + 1)
  RmEndSession := fun s _ => s
  OpenProcess := fun s _ pid => (c.openProcess pid, s)
  GetProcessTimes := fun s h => (c.processTimes h, s)
  CloseHandle := fun s _ => s
  GetLastError := fun _ => c.lastError

/-- Session 7 is issued, the file is registered, the single reply reports one
holder, process 4242 started at `(5, 1)`; that process can be opened (handle
100) and reports the same creation time; no other process can be opened. -/
def oneHolder : Script where
  start := (0, 7)
  register := 0
  getList := [⟨0, 1, 1, [⟨⟨4242, ⟨5, 1⟩⟩⟩], 0⟩]
  openProcess := fun pid => if pid = 4242 then 100 else 0
  processTimes := fun _ => (1, ⟨5, 1⟩)
  lastError := 0

/-- The trace of `getPidHoldingFileLock` on `oneHolder`, for the path `[99]`. -/
def oneHolderTrace : List Event :=
  [Event.RmStartSession 0 7, Event.RmRegisterResources 7 [[99]] 0,
    Event.RmGetList 7 128 0 1 1 (⟨⟨4242, ⟨5, 1⟩⟩⟩ :: List.replicate 127 default),
    Event.OpenProcess 4242 100, Event.GetProcessTimes 100 1 ⟨5, 1⟩, Event.CloseHandle 100]
    ++ List.replicate 127 (Event.OpenProcess 0 0) ++ [Event.RmEndSession 7]

/-- As `oneHolder`, but the identifier of the holder is `2 ^ 31`. -/
def bigPid : Script where
  start := (0, 7)
  register := 0
  getList := [⟨0, 1, 1, [⟨⟨2147483648, ⟨5, 1⟩⟩⟩], 0⟩]
  openProcess := fun pid => if pid = 2147483648 then 100 else 0
  processTimes := fun _ => (1, ⟨5, 1⟩)
  lastError := 0

/-- As `oneHolder`, but the session identifier issued is `0`. -/
def sessionZero : Script where
  start := (0, 0)
  register := 0
  getList := [⟨0, 1, 1, [⟨⟨4242, ⟨5, 1⟩⟩⟩], 0⟩]
  openProcess := fun pid => if pid = 4242 then 100 else 0
  processTimes := fun _ => (1, ⟨5, 1⟩)
  lastError := 0

/-- The enumeration succeeds at once and reports zero records written; the
platform opens process identifier 0 (handle 100) and reports the creation time
`(0, 0)` for it. -/
def nothingWritten : Script where
  start := (0, 7)
  register := 0
  getList := [⟨0, 0, 0, [], 0⟩]
  openProcess := fun pid => if pid = 0 then 100 else 0
  processTimes := fun _ => (1, ⟨0, 0⟩)
  lastError := 0

/-- The first `RmGetList` call is answered `ERROR_MORE_DATA` (130 needed) after
the service stored the record of process 4242; the second call succeeds and
reports zero records written. Process 4242 can be opened and reports the
creation time of its record; no other process can be opened. -/
def holderGone : Script where
  start := (0, 7)
  register := 0
  getList := [⟨234, 130, 1, [⟨⟨4242, ⟨5, 1⟩⟩⟩], 0⟩, ⟨0, 0, 0, [], 0⟩]
  openProcess := fun pid => if pid = 4242 then 100 else 0
  processTimes := fun _ => (1, ⟨5, 1⟩)
  lastError := 0

/-- The first `RmGetList` call is answered `ERROR_MORE_DATA` (130 needed) after
the service stored the records of processes 4242 and 4343; the second call
succeeds and reports one record written, that of process 4343. Both processes
can be opened and report the creation times of their records; no other process
can be opened. -/
def leftOver : Script where
  start := (0, 7)
  register := 0
  getList := [⟨234, 130, 2, [⟨⟨4343, ⟨6, 1⟩⟩⟩, ⟨⟨4242, ⟨5, 1⟩⟩⟩], 0⟩,
              ⟨0, 1, 1, [⟨⟨4343, ⟨6, 1⟩⟩⟩], 0⟩]
  openProcess := fun pid => if pid = 4242 then 100 else if pid = 4343 then 104 else 0
  processTimes := fun h => if h = 100 then (1, ⟨5, 1⟩) else (1, ⟨6, 1⟩)
  lastError := 0

/-- The trace of `getPidHoldingFileLock` on `leftOver`, for the path `[99]`. -/
def leftOverTrace : List Event :=
  [Event.RmStartSession 0 7, Event.RmRegisterResources 7 [[99]] 0,
    Event.RmGetList 7 128 234 130 2
      (⟨⟨4343, ⟨6, 1⟩⟩⟩ :: ⟨⟨4242, ⟨5, 1⟩⟩⟩ :: List.replicate 126 default),
    Event.RmGetList 7 260 0 1 1
      (⟨⟨4343, ⟨6, 1⟩⟩⟩ :: ⟨⟨4242, ⟨5, 1⟩⟩⟩ :: List.replicate 258 default),
    Event.OpenProcess 4343 104, Event.GetProcessTimes 104 1 ⟨6, 1⟩, Event.CloseHandle 104,
    Event.OpenProcess 4242 100, Event.GetProcessTimes 100 1 ⟨5, 1⟩, Event.CloseHandle 100]
    ++ List.replicate 258 (Event.OpenProcess 0 0) ++ [Event.RmEndSession 7]

/-- The first `RmGetList` call is answered `ERROR_MORE_DATA` with needed-count
`2 ^ 31`; the second call succeeds with nothing written. -/
def hugeNeeded : Script where
  start := (0, 7)
  register := 0
  getList := [⟨234, 2147483648, 0, [], 0⟩, ⟨0, 0, 0, [], 0⟩]
  openProcess := fun _ => 0
  processTimes := fun _ => (0, ⟨0, 0⟩)
  lastError := 0

/-- Session 7 is issued, registration fails with status and last error 5. -/
def registerFails : Script where
  start := (0, 7)
  register := 5
  getList := []
  openProcess := fun _ => 0
  processTimes := fun _ => (0, ⟨0, 0⟩)
  lastError := 5

/-- Session 7 is issued, the file is registered, the first `RmGetList` call
fails with status and last error 5. -/
def getListFails : Script where
  start := (0, 7)
  register := 0
  getList := [⟨5, 0, 0, [], 0⟩]
  openProcess := fun _ => 0
  processTimes := fun _ => (0, ⟨0, 0⟩)
  lastError := 5

/-- The required count of the service `growing`: 129 at the first call, 259 later. -/
def growingRequired (s : Nat) : Nat :=
  if s = 0 then 129 else 259

/-- A service whose required count grows between calls; it answers
`ERROR_MORE_DATA` exactly when the capacity offered is below the required count,
and reports the required count as the needed-count. No process can be opened. -/
def growing : Platform Nat where
  RmStartSession := fun s => ((0, 7), s)
  RmRegisterResources := fun s _ _ => (0, s)
  RmGetList := fun s _ cap _ =>
    if cap < growingRequired s then (⟨ERROR_MORE_DATA, growingRequired s, 0, [], 0⟩, s + 1)
    else (⟨ERROR_SUCCESS, growingRequired s, 0, [], 0⟩, s + 1)
  RmEndSession := fun s _ => s
  OpenProcess := fun s _ _ => (0, s)
  GetProcessTimes := fun s _ => ((0, ⟨0, 0⟩), s)
  CloseHandle := fun s _ => s
  GetLastError := fun _ => 0

/-- A service whose required count is always 1: it answers `ERROR_MORE_DATA`
exactly when the capacity offered is 0, and reports 1 as the needed-count. No
process can be opened. -/
def needsOne : Platform Nat where
  RmStartSession := fun s => ((0, 7), s)
  RmRegisterResources := fun s _ _ => (0, s)
  RmGetList := fun s _ cap _ =>
    if cap < 1 then (⟨ERROR_MORE_DATA, 1, 0, [], 0⟩, s + 1)
    else (⟨ERROR_SUCCESS, 1, 0, [], 0⟩, s + 1)
  RmEndSession := fun s _ => s
  OpenProcess := fun s _ _ => (0, s)
  GetProcessTimes := fun s _ => ((0, ⟨0, 0⟩), s)
  CloseHandle := fun s _ => s
  GetLastError := fun _ => 0

/-! ## Lemmas on the embedding -/

section
variable {σ : Type}

theorem get_ctor {τ ω : Type} (T : RaiiTraits τ ω) (t : τ) :
    (RaiiWithInvalidValue.ctor T t).get = t := rfl

theorem dtor_session_trace (P : Platform σ) (d : Nat) (w : World σ) :
    ((RaiiWithInvalidValue.ctor (RmSessionRaiiTraits P) d).dtor w).2 = w.2 ++ closeSession d := by
  unfold RaiiWithInvalidValue.dtor RaiiWithInvalidValue.is_valid RaiiWithInvalidValue.ctor
    closeSession
  by_cases h : d = 0
  · simp [h, RmSessionRaiiTraits]
  · simp [h, RmSessionRaiiTraits]

theorem CompareFileTime_eq_zero_iff (a b : FILETIME) : CompareFileTime a b = 0 ↔ b = a := by
  obtain ⟨al, ah⟩ := a
  obtain ⟨bl, bh⟩ := b
  unfold CompareFileTime
  simp only [FILETIME.mk.injEq]
  constructor
  · intro h
    split_ifs at h
    all_goals omega
  · rintro ⟨rfl, rfl⟩
    simp

theorem verifyRecord_spec (P : Platform σ) (info : RM_PROCESS_INFO) (w : World σ)
    (pids : List Int) :
    ∃ v : Visit, v.info = info ∧ v.answeredBy P ∧
      (verifyRecord P info w pids).1.2 = w.2 ++ v.events ∧
      (verifyRecord P info w pids).2
        = pids ++ (if v.matched then [toInt32 info.Process.dwProcessId] else []) := by
  rcases ho : P.OpenProcess w.1 PROCESS_QUERY_LIMITED_INFORMATION info.Process.dwProcessId
    with ⟨h, s1⟩
  rcases ht : P.GetProcessTimes s1 h with ⟨⟨ok, ft⟩, s2⟩
  refine ⟨⟨info, h, ok, ft⟩, rfl, ⟨w.1, by simp [ho], fun _ => by simp [ho, ht]⟩, ?_, ?_⟩
  · by_cases h0 : h = 0
    · simp [verifyRecord, Visit.events, RaiiWithInvalidValue.dtor, RaiiWithInvalidValue.toBool,
        RaiiWithInvalidValue.is_valid, RaiiWithInvalidValue.ctor, ProcessRaiiTraits, ho, h0]
    · simp [verifyRecord, Visit.events, RaiiWithInvalidValue.dtor, RaiiWithInvalidValue.toBool,
        RaiiWithInvalidValue.is_valid, RaiiWithInvalidValue.ctor, RaiiWithInvalidValue.get,
        ProcessRaiiTraits, ho, ht, h0]
      split <;> simp
  · by_cases h0 : h = 0
    · simp [verifyRecord, Visit.matched, RaiiWithInvalidValue.toBool,
        RaiiWithInvalidValue.is_valid, RaiiWithInvalidValue.ctor, ProcessRaiiTraits, ho, h0]
    · by_cases hk : ok = 0
      · simp [verifyRecord, Visit.matched, RaiiWithInvalidValue.toBool,
          RaiiWithInvalidValue.is_valid, RaiiWithInvalidValue.ctor, RaiiWithInvalidValue.get,
          ProcessRaiiTraits, ho, ht, h0, hk]
      · by_cases hc : ft = info.Process.ProcessStartTime
        · simp [verifyRecord, Visit.matched, RaiiWithInvalidValue.toBool,
            RaiiWithInvalidValue.is_valid, RaiiWithInvalidValue.ctor, RaiiWithInvalidValue.get,
            ProcessRaiiTraits, ho, ht, h0, hk, hc, CompareFileTime_eq_zero_iff]
        · simp [verifyRecord, Visit.matched, RaiiWithInvalidValue.toBool,
            RaiiWithInvalidValue.is_valid, RaiiWithInvalidValue.ctor, RaiiWithInvalidValue.get,
            ProcessRaiiTraits, ho, ht, h0, hk, hc, CompareFileTime_eq_zero_iff]

theorem verifyLoop_spec (P : Platform σ) (rgpi : List RM_PROCESS_INFO) :
    ∀ (w : World σ) (pids : List Int),
    ∃ visits : List Visit, visits.map Visit.info = rgpi ∧ (∀ v ∈ visits, v.answeredBy P) ∧
      (verifyLoop P rgpi w pids).1.2 = w.2 ++ visits.flatMap Visit.events ∧
      (verifyLoop P rgpi w pids).2
        = pids ++ (visits.filter Visit.matched).map
            (fun v => toInt32 v.info.Process.dwProcessId) := by
  induction rgpi with
  | nil =>
    intro w pids
    exact ⟨[], rfl, by simp, by simp [verifyLoop], by simp [verifyLoop]⟩
  | cons info rest ih =>
    intro w pids
    obtain ⟨v, hv, ha, ht, hp⟩ := verifyRecord_spec P info w pids
    obtain ⟨vs, hvs, has, hts, hps⟩ :=
      ih (verifyRecord P info w pids).1 (verifyRecord P info w pids).2
    refine ⟨v :: vs, by simp [hv, hvs], ?_, ?_, ?_⟩
    · intro x hx
      rcases List.mem_cons.1 hx with rfl | hx
      · exact ha
      · exact has x hx
    · simp only [verifyLoop, hts, ht, List.flatMap_cons, List.append_assoc]
    · subst hv
      show (verifyLoop P rest (verifyRecord P v.info w pids).1
        (verifyRecord P v.info w pids).2).2 = _
      rw [hps, hp]
      by_cases hm : v.matched = true <;> simp [hm]

theorem store_length (rgpi written : List RM_PROCESS_INFO) :
    (store rgpi written).length = rgpi.length := by
  simp [store]
  omega

theorem resize_length (rgpi : List RM_PROCESS_INFO) (n : Nat) :
    (resize rgpi n).length = n := by
  simp [resize]
  omega

theorem rmGetListLoop_spec (P : Platform σ) (d : Nat) (fuel : Nat) :
    ∀ (n : Nat) (rgpi : List RM_PROCESS_INFO) (w : World σ) (dwError : Nat)
      (rgpi' : List RM_PROCESS_INFO) (w' : World σ),
    rmGetListLoop P (RaiiWithInvalidValue.ctor (RmSessionRaiiTraits P) d) fuel n rgpi w
      = some (dwError, rgpi', w') →
    ∃ gl, w'.2 = w.2 ++ gl ∧ GetListRun d n gl dwError rgpi' := by
  induction fuel with
  | zero =>
    intro n rgpi w dwError rgpi' w' h
    simp [rmGetListLoop] at h
  | succ fuel ih =>
    intro n rgpi w dwError rgpi' w' h
    rcases hr : P.RmGetList w.1 d ((2 * n) % UINT_RANGE) (resize rgpi ((2 * n) % UINT_RANGE))
      with ⟨⟨e, needed, written, apps, reason⟩, s1⟩
    simp only [rmGetListLoop, RaiiWithInvalidValue.get, RaiiWithInvalidValue.ctor, hr] at h
    by_cases hmore : e = ERROR_MORE_DATA
    · subst hmore
      simp only [if_true] at h
      obtain ⟨gl, hgl, hrun⟩ := ih _ _ _ _ _ _ h
      refine ⟨Event.RmGetList d ((2 * n) % UINT_RANGE) ERROR_MORE_DATA needed written
        (store (resize rgpi ((2 * n) % UINT_RANGE)) apps) :: gl, ?_, ?_⟩
      · rw [hgl]
        simp only [List.append_assoc, List.singleton_append]
      · exact GetListRun.more n _ _ _ gl dwError rgpi'
          (by rw [store_length, resize_length]) hrun
    · simp only [hmore, if_false, Option.some.injEq, Prod.mk.injEq] at h
      obtain ⟨h1, h2, h3⟩ := h
      subst h1 h2 h3
      exact ⟨_, rfl, GetListRun.last n _ _ _ _ hmore (by rw [store_length, resize_length])⟩

theorem getPidHoldingFileLock_run (P : Platform σ) (fuel : Nat) (file : Path) (s : σ)
    (out : Except system_error (List Int)) (w : World σ)
    (h : getPidHoldingFileLock P fuel file s = some (out, w)) : Run P file out w.2 := by
  rcases hs : P.RmStartSession s with ⟨⟨st, d⟩, s1⟩
  by_cases hst : st = ERROR_SUCCESS
  · subst hst
    rcases hreg : P.RmRegisterResources s1 d [file] with ⟨rs, s2⟩
    by_cases hrs : rs = ERROR_SUCCESS
    · subst hrs
      simp only [getPidHoldingFileLock, createRmSession, hs, ne_eq, not_true_eq_false,
        if_false, get_ctor, hreg, List.nil_append] at h
      split at h
      · exact absurd h (by simp)
      · rename_i dwError rgpi w2 hloop
        obtain ⟨gl, hgl, hrun⟩ := rmGetListLoop_spec P d fuel _ _ _ _ _ _ hloop
        simp only at hgl
        by_cases herr : dwError = ERROR_SUCCESS
        · subst herr
          simp only [ne_eq, not_true_eq_false, if_false, Option.some.injEq,
            Prod.mk.injEq] at h
          obtain ⟨h1, h2⟩ := h
          obtain ⟨visits, hv, ha, ht, hp⟩ := verifyLoop_spec P rgpi w2 []
          subst h1 h2
          rw [dtor_session_trace, ht, hgl, hp, List.nil_append]
          subst hv
          exact Run.returned d gl visits hrun ha
        · simp only [ne_eq, herr, not_false_eq_true, if_true, Option.some.injEq,
            Prod.mk.injEq] at h
          obtain ⟨h1, h2⟩ := h
          subst h1 h2
          rw [dtor_session_trace, hgl]
          exact Run.getListFailed d dwError gl rgpi _ hrun herr
    · simp only [getPidHoldingFileLock, createRmSession, hs, ne_eq, not_true_eq_false,
        if_false, get_ctor, hreg, List.nil_append,
        hrs, not_false_eq_true, if_true, Option.some.injEq, Prod.mk.injEq] at h
      obtain ⟨h1, h2⟩ := h
      subst h1 h2
      rw [dtor_session_trace]
      exact Run.registerFailed d rs _ hrs
  · simp only [getPidHoldingFileLock, createRmSession, hs, ne_eq, hst, not_false_eq_true,
      if_true, List.nil_append, Option.some.injEq, Prod.mk.injEq] at h
    obtain ⟨h1, h2⟩ := h
    subst h1 h2
    exact Run.startFailed st d _ hst

end

theorem mem_visit_events (v : Visit) (e : Event) (h : e ∈ v.events) :
    (∃ pid hnd, e = Event.OpenProcess pid hnd) ∨
    (∃ hnd ok ft, e = Event.GetProcessTimes hnd ok ft) ∨
    (∃ hnd, e = Event.CloseHandle hnd) := by
  unfold Visit.events at h
  split at h
  · simp only [List.mem_singleton] at h
    exact Or.inl ⟨_, _, h⟩
  · simp only [List.mem_cons, List.mem_singleton, List.not_mem_nil, or_false] at h
    rcases h with h | h | h
    · exact Or.inl ⟨_, _, h⟩
    · exact Or.inr (Or.inl ⟨_, _, _, h⟩)
    · exact Or.inr (Or.inr ⟨_, h⟩)

theorem mem_visits_events (visits : List Visit) (e : Event)
    (h : e ∈ visits.flatMap Visit.events) :
    (∃ pid hnd, e = Event.OpenProcess pid hnd) ∨
    (∃ hnd ok ft, e = Event.GetProcessTimes hnd ok ft) ∨
    (∃ hnd, e = Event.CloseHandle hnd) := by
  obtain ⟨v, _, hv⟩ := List.mem_flatMap.1 h
  exact mem_visit_events v e hv

theorem mem_closeSession (d : Nat) (e : Event) (h : e ∈ closeSession d) :
    d ≠ 0 ∧ e = Event.RmEndSession d := by
  unfold closeSession at h
  split at h
  · simp at h
  · rename_i hd
    simp only [List.mem_singleton] at h
    exact ⟨hd, h⟩

theorem mem_getListRun {d n : Nat} {gl : List Event} {dwError : Nat}
    {rgpi : List RM_PROCESS_INFO} (hrun : GetListRun d n gl dwError rgpi) :
    ∀ e ∈ gl, ∃ c st m k buf, e = Event.RmGetList d c st m k buf ∧
      (st = ERROR_MORE_DATA ∨ st = dwError) := by
  induction hrun with
  | last n dwError needed written rgpi hne hlen =>
    intro e he
    simp only [List.mem_singleton] at he
    exact ⟨_, _, _, _, _, he, Or.inr rfl⟩
  | more n needed written buf rest dwError rgpi hlen hrest ih =>
    intro e he
    rcases List.mem_cons.1 he with he | he
    · exact ⟨_, _, _, _, _, he, Or.inl rfl⟩
    · exact ih e he

theorem getListRun_last {d n : Nat} {gl : List Event} {dwError : Nat}
    {rgpi : List RM_PROCESS_INFO} (hrun : GetListRun d n gl dwError rgpi) :
    dwError ≠ ERROR_MORE_DATA ∧
    ∃ pre c m k, gl = pre ++ [Event.RmGetList d c dwError m k rgpi] ∧ rgpi.length = c := by
  induction hrun with
  | last n dwError needed written rgpi hne hlen =>
    exact ⟨hne, [], _, _, _, rfl, hlen⟩
  | more n needed written buf rest dwError rgpi hlen hrest ih =>
    obtain ⟨hne, pre, c, m, k, hgl, hc⟩ := ih
    exact ⟨hne, _ :: pre, c, m, k, by rw [hgl]; rfl, hc⟩

theorem getListCalls_append (l₁ l₂ : List Event) :
    getListCalls (l₁ ++ l₂) = getListCalls l₁ ++ getListCalls l₂ := by
  simp [getListCalls]

theorem getListCalls_eq_nil (l : List Event)
    (h : ∀ e ∈ l, ∀ d c st m k buf, e ≠ Event.RmGetList d c st m k buf) :
    getListCalls l = [] := by
  induction l with
  | nil => rfl
  | cons e l ih =>
    have hl := ih (fun x hx => h x (List.mem_cons_of_mem _ hx))
    have he := h e (List.mem_cons_self _ _)
    cases e <;> first
      | exact absurd rfl (he _ _ _ _ _ _)
      | simpa [getListCalls, getListCall] using hl

theorem getListCalls_visits (visits : List Visit) :
    getListCalls (visits.flatMap Visit.events) = [] := by
  apply getListCalls_eq_nil
  intro e he d c st m k buf heq
  subst heq
  rcases mem_visits_events visits _ he with ⟨_, _, h⟩ | ⟨_, _, _, h⟩ | ⟨_, h⟩ <;> cases h

theorem getListCalls_closeSession (d : Nat) : getListCalls (closeSession d) = [] := by
  apply getListCalls_eq_nil
  intro e he d' c st m k buf heq
  subst heq
  cases (mem_closeSession d _ he).2

/-- The shape shared by the traces of all completed calls in which the session
was started: the two opening events, then events that are neither session
starts nor session ends, then the events of the destructor of the session. -/
theorem run_shape {σ : Type} {P : Platform σ} {file : Path}
    {out : Except system_error (List Int)} {tr : List Event} (hrun : Run P file out tr) :
    (∃ st d, st ≠ ERROR_SUCCESS ∧ tr = [Event.RmStartSession st d]) ∨
    (∃ d rs mid, tr = Event.RmStartSession ERROR_SUCCESS d ::
        Event.RmRegisterResources d [file] rs :: (mid ++ closeSession d) ∧
      ∀ e ∈ mid, (∀ st d', e ≠ Event.RmStartSession st d') ∧
        (∀ d', e ≠ Event.RmEndSession d')) := by
  cases hrun with
  | startFailed st d e hst => exact Or.inl ⟨st, d, hst, rfl⟩
  | registerFailed d rs e hrs =>
    exact Or.inr ⟨d, rs, [], by simp, by simp⟩
  | getListFailed d dwError gl rgpi e hgl herr =>
    refine Or.inr ⟨d, ERROR_SUCCESS, gl, by simp, ?_⟩
    intro x hx
    obtain ⟨c, st, m, k, buf, rfl, _⟩ := mem_getListRun hgl x hx
    simp
  | returned d gl visits hgl ha =>
    refine Or.inr ⟨d, ERROR_SUCCESS, gl ++ visits.flatMap Visit.events, by simp, ?_⟩
    intro x hx
    rcases List.mem_append.1 hx with hx | hx
    · obtain ⟨c, st, m, k, buf, rfl, _⟩ := mem_getListRun hgl x hx
      simp
    · rcases mem_visits_events visits x hx with ⟨_, _, rfl⟩ | ⟨_, _, _, rfl⟩ | ⟨_, rfl⟩ <;> simp

theorem toInt32_of_lt (n : Nat) (h : n < 2147483648) : toInt32 n = (n : Int) := by
  unfold toInt32 UINT_RANGE
  have h1 : n % 4294967296 = n := Nat.mod_eq_of_lt (by omega)
  rw [h1, if_pos h]

theorem toInt32_of_ge (n : Nat) (h : 2147483648 ≤ n) (h' : n < UINT_RANGE) :
    toInt32 n = (n : Int) - 4294967296 := by
  unfold UINT_RANGE at h'
  unfold toInt32 UINT_RANGE
  have h1 : n % 4294967296 = n := Nat.mod_eq_of_lt h'
  rw [h1, if_neg (by omega)]

theorem toInt32_bounds (n : Nat) : -2147483648 ≤ toInt32 n ∧ toInt32 n < 2147483648 := by
  unfold toInt32 UINT_RANGE
  have h1 : n % 4294967296 < 4294967296 := Nat.mod_lt _ (by norm_num)
  split <;> omega

theorem toInt32_emod (n : Nat) (h : n < UINT_RANGE) :
    (toInt32 n % 4294967296).toNat = n := by
  unfold UINT_RANGE at h
  by_cases hn : n < 2147483648
  · rw [toInt32_of_lt n hn]
    omega
  · rw [toInt32_of_ge n (by omega) h]
    omega

theorem containsPid_of_mem (pids : List Int) (pid : Nat) (h : pid < UINT_RANGE)
    (hmem : toInt32 pid ∈ pids) : containsPid pids pid = true := by
  unfold containsPid
  rw [List.any_eq_true]
  exact ⟨toInt32 pid, hmem, by simp [toInt32_emod pid h]⟩

/-- The trace and the vector of a call that returned normally. -/
theorem returned_shape {σ : Type} (P : Platform σ) (fuel : Nat) (file : Path) (s : σ)
    (pids : List Int) (w : World σ)
    (h : getPidHoldingFileLock P fuel file s = some (Except.ok pids, w)) :
    ∃ (d : Nat) (gl : List Event) (visits : List Visit),
      w.2 = [Event.RmStartSession ERROR_SUCCESS d,
              Event.RmRegisterResources d [file] ERROR_SUCCESS] ++ gl
              ++ visits.flatMap Visit.events ++ closeSession d ∧
      GetListRun d 64 gl ERROR_SUCCESS (visits.map Visit.info) ∧
      (∀ v ∈ visits, v.answeredBy P) ∧
      pids = (visits.filter Visit.matched).map
        (fun v => toInt32 v.info.Process.dwProcessId) := by
  have hrun := getPidHoldingFileLock_run P fuel file s _ _ h
  generalize hout : (Except.ok pids : Except system_error (List Int)) = out at hrun
  generalize htr : w.2 = tr at hrun
  cases hrun with
  | startFailed st d e hst => cases hout
  | registerFailed d rs e hrs => cases hout
  | getListFailed d dwError gl rgpi e hgl herr => cases hout
  | returned d gl visits hgl ha =>
    injection hout with hout
    subst hout
    exact ⟨d, gl, visits, rfl, hgl, ha, rfl⟩

theorem matched_iff (v : Visit) : v.matched = true ↔
    v.hProcess ≠ 0 ∧ v.ok ≠ 0 ∧ v.ftCreate = v.info.Process.ProcessStartTime := by
  simp [Visit.matched, and_assoc]

theorem getListCalls_cons_getList (d c st m k : Nat) (buf : List RM_PROCESS_INFO)
    (rest : List Event) :
    getListCalls (Event.RmGetList d c st m k buf :: rest)
      = ⟨c, st, m, k, buf.length⟩ :: getListCalls rest := by
  simp [getListCalls, getListCall]

/-- The calls of one run of the enumeration loop: the first offers
`2 * n mod 2 ^ 32` entries, each passes an array as long as the capacity it
offers, and a call answered `ERROR_MORE_DATA` is followed by a call that offers
twice the needed-count reported, modulo `2 ^ 32`. -/
theorem getListRun_calls {d n : Nat} {gl : List Event} {dwError : Nat}
    {rgpi : List RM_PROCESS_INFO} (hrun : GetListRun d n gl dwError rgpi) :
    (∃ c rest, getListCalls gl = c :: rest ∧ c.nProcInfoIn = (2 * n) % UINT_RANGE) ∧
    (∀ c ∈ getListCalls gl, c.arrayLength = c.nProcInfoIn) ∧
    (∀ i c, (getListCalls gl)[i]? = some c → c.dwError = ERROR_MORE_DATA →
      ∃ c', (getListCalls gl)[i + 1]? = some c' ∧
        c'.nProcInfoIn = (2 * c.nProcInfoNeeded) % UINT_RANGE) := by
  induction hrun with
  | last n dwError needed written rgpi hne hlen =>
    rw [getListCalls_cons_getList]
    refine ⟨⟨_, _, rfl, rfl⟩, ?_, ?_⟩
    · intro c hc
      simp only [getListCalls, List.filterMap_nil, List.mem_singleton] at hc
      rw [hc]
      exact hlen
    · intro i c hc hmore
      cases i with
      | zero =>
        simp only [List.getElem?_cons_zero, Option.some.injEq] at hc
        rw [← hc] at hmore
        exact absurd hmore hne
      | succ i => simp [getListCalls] at hc
  | more n needed written buf rest dwError rgpi hlen hrest ih =>
    obtain ⟨⟨c1, rest1, hc1, hcap1⟩, hlen1, hchain1⟩ := ih
    rw [getListCalls_cons_getList]
    refine ⟨⟨_, _, rfl, rfl⟩, ?_, ?_⟩
    · intro c hc
      rcases List.mem_cons.1 hc with hc | hc
      · rw [hc]
        exact hlen
      · exact hlen1 c hc
    · intro i c hc hmore
      cases i with
      | zero =>
        simp only [List.getElem?_cons_zero, Option.some.injEq] at hc
        refine ⟨c1, ?_, ?_⟩
        · simp [hc1]
        · rw [hcap1, ← hc]
      | succ i =>
        simp only [List.getElem?_cons_succ] at hc
        obtain ⟨c', hc', hcap'⟩ := hchain1 i c hc hmore
        exact ⟨c', by simpa using hc', hcap'⟩

/-- The `RmGetList` calls of a completed call are none, or those of one run of
the enumeration loop that starts with `nProcInfoNeeded = 64`. -/
theorem run_getListCalls {σ : Type} {P : Platform σ} {file : Path}
    {out : Except system_error (List Int)} {tr : List Event} (hrun : Run P file out tr) :
    getListCalls tr = [] ∨
    ∃ d gl dwError rgpi, GetListRun d 64 gl dwError rgpi ∧
      getListCalls tr = getListCalls gl := by
  cases hrun with
  | startFailed st d e hst => exact Or.inl (by simp [getListCalls, getListCall])
  | registerFailed d rs e hrs =>
    left
    rw [getListCalls_append, getListCalls_closeSession]
    simp [getListCalls, getListCall]
  | getListFailed d dwError gl rgpi e hgl herr =>
    right
    refine ⟨d, gl, dwError, rgpi, hgl, ?_⟩
    rw [getListCalls_append, getListCalls_append, getListCalls_closeSession]
    simp [getListCalls, getListCall]
  | returned d gl visits hgl ha =>
    right
    refine ⟨d, gl, ERROR_SUCCESS, _, hgl, ?_⟩
    rw [getListCalls_append, getListCalls_append, getListCalls_append,
      getListCalls_closeSession, getListCalls_visits]
    simp [getListCalls, getListCall]

theorem moreDataReplies_append (l₁ l₂ : List Event) :
    moreDataReplies (l₁ ++ l₂) = moreDataReplies l₁ + moreDataReplies l₂ := by
  simp [moreDataReplies, getListCalls_append]

theorem moreDataReplies_cons_getList (d c st m k : Nat) (buf : List RM_PROCESS_INFO)
    (rest : List Event) :
    moreDataReplies (Event.RmGetList d c st m k buf :: rest)
      = (if st = ERROR_MORE_DATA then 1 else 0) + moreDataReplies rest := by
  unfold moreDataReplies
  rw [getListCalls_cons_getList, List.countP_cons]
  by_cases hst : st = ERROR_MORE_DATA <;> simp [hst, Nat.add_comm]

theorem moreDataReplies_of_calls_nil (l : List Event) (h : getListCalls l = []) :
    moreDataReplies l = 0 := by
  simp [moreDataReplies, h]

/-- Termination of the enumeration loop for a service that answers
`ERROR_MORE_DATA` only when the capacity offered is below its current required
count, reports that count as the needed-count, and never requires more than
`F < 2 ^ 31` entries. `j` counts the `ERROR_MORE_DATA` replies received before. -/
theorem rmGetListLoop_terminates {σ : Type} (P : Platform σ) (required : σ → Nat) (F : Nat)
    (hF : F < 2147483648)
    (hsvc : ∀ (s : σ) (d cap : Nat) (rgpi : List RM_PROCESS_INFO), required s ≤ F ∧
      ((P.RmGetList s d cap rgpi).1.dwError = ERROR_MORE_DATA →
        cap < required s ∧ (P.RmGetList s d cap rgpi).1.nProcInfoNeeded = required s))
    (d : Nat) (fuel : Nat) :
    ∀ (j n : Nat) (rgpi : List RM_PROCESS_INFO) (w : World σ),
    128 * 2 ^ j ≤ (2 * n) % UINT_RANGE → 25 ≤ fuel + j →
    ∃ dwError rgpi' w' gl,
      rmGetListLoop P (RaiiWithInvalidValue.ctor (RmSessionRaiiTraits P) d) fuel n rgpi w
        = some (dwError, rgpi', w') ∧
      w'.2 = w.2 ++ gl ∧
      (1 ≤ moreDataReplies gl → 128 * 2 ^ (j + moreDataReplies gl - 1) < F) ∧
      ((∀ s s', required s = required s') →
        moreDataReplies gl ≤ 1 ∧
        ((∀ s, required s ≤ (2 * n) % UINT_RANGE) → moreDataReplies gl = 0)) := by
  induction fuel with
  | zero =>
    intro j n rgpi w hcap hfuel
    exfalso
    have h1 : 2 ^ 25 ≤ 2 ^ j := Nat.pow_le_pow_right (by norm_num) (by omega)
    have h2 : (2 * n) % UINT_RANGE < UINT_RANGE := Nat.mod_lt _ (by unfold UINT_RANGE; norm_num)
    unfold UINT_RANGE at h2 hcap
    norm_num at h1
    omega
  | succ fuel ih =>
    intro j n rgpi w hcap hfuel
    rcases hr : P.RmGetList w.1 d ((2 * n) % UINT_RANGE) (resize rgpi ((2 * n) % UINT_RANGE))
      with ⟨⟨e, needed, written, apps, reason⟩, s1⟩
    obtain ⟨hreq, hmd⟩ := hsvc w.1 d ((2 * n) % UINT_RANGE) (resize rgpi ((2 * n) % UINT_RANGE))
    rw [hr] at hmd
    simp only at hmd
    by_cases hmore : e = ERROR_MORE_DATA
    · subst hmore
      obtain ⟨hlt, hneeded⟩ := hmd rfl
      have hpow : 2 ^ (j + 1) = 2 * 2 ^ j := by rw [pow_succ, Nat.mul_comm]
      have hnext : (2 * needed) % UINT_RANGE = 2 * needed := by
        unfold UINT_RANGE
        omega
      have hcap' : 128 * 2 ^ (j + 1) ≤ (2 * needed) % UINT_RANGE := by
        rw [hnext, hpow]
        omega
      obtain ⟨dwError, rgpi', w', gl, hloop, htr, hbound, hconst⟩ :=
        ih (j + 1) needed (store (resize rgpi ((2 * n) % UINT_RANGE)) apps)
          (s1, w.2 ++ [Event.RmGetList d ((2 * n) % UINT_RANGE) ERROR_MORE_DATA needed written
            (store (resize rgpi ((2 * n) % UINT_RANGE)) apps)]) hcap' (by omega)
      refine ⟨dwError, rgpi', w', Event.RmGetList d ((2 * n) % UINT_RANGE) ERROR_MORE_DATA needed
        written (store (resize rgpi ((2 * n) % UINT_RANGE)) apps) :: gl, ?_, ?_, ?_, ?_⟩
      · simp only [rmGetListLoop, get_ctor, hr, if_true]
        exact hloop
      · rw [htr]
        simp only [List.append_assoc, List.singleton_append]
      · intro _
        rw [moreDataReplies_cons_getList, if_pos rfl]
        by_cases hk : moreDataReplies gl = 0
        · rw [hk]
          show 128 * 2 ^ j < F
          omega
        · have := hbound (by omega)
          have he : j + (1 + moreDataReplies gl) - 1 = j + 1 + moreDataReplies gl - 1 := by omega
          rw [he]
          exact this
      · intro hc
        have hzero : moreDataReplies gl = 0 := by
          apply (hconst hc).2
          intro s'
          rw [hnext, hneeded, hc s' w.1]
          omega
        rw [moreDataReplies_cons_getList, if_pos rfl, hzero]
        refine ⟨by omega, ?_⟩
        intro hall
        have := hall w.1
        omega
    · refine ⟨e, store (resize rgpi ((2 * n) % UINT_RANGE)) apps,
        (s1, w.2 ++ [Event.RmGetList d ((2 * n) % UINT_RANGE) e needed written
          (store (resize rgpi ((2 * n) % UINT_RANGE)) apps)]),
        [Event.RmGetList d ((2 * n) % UINT_RANGE) e needed written
          (store (resize rgpi ((2 * n) % UINT_RANGE)) apps)], ?_, rfl, ?_, ?_⟩
      · simp only [rmGetListLoop, get_ctor, hr, hmore, if_false]
      · rw [moreDataReplies_cons_getList, if_neg hmore]
        intro hk
        simp [moreDataReplies, getListCalls] at hk
      · intro _
        rw [moreDataReplies_cons_getList, if_neg hmore]
        simp [moreDataReplies, getListCalls]

set_option maxRecDepth 100000 in
theorem oneHolder_run :
    getPidHoldingFileLock oneHolder.platform 3 [99] 0
      = some (Except.ok [4242], (1, oneHolderTrace)) := by
  rfl

set_option maxRecDepth 100000 in
theorem leftOver_run :
    getPidHoldingFileLock leftOver.platform 3 [99] 0
      = some (Except.ok [4343, 4242], (2, leftOverTrace)) := by
  rfl

/-- C8: for every traits bundle and every value `v`, a wrapper bound to `v` is valid
exactly when `v` differs from the sentinel, `get` returns `v`, a default-constructed
wrapper holds the sentinel and is invalid, and the life of the wrapper invokes
`close` once, on `v`, at destruction, when `v` differs from the sentinel and never
otherwise (shown both as the effect on an arbitrary world and as the log of the
instrumented bundle). -/
theorem C8_raii_wrapper {τ ω : Type} [DecidableEq τ] (T : RaiiTraits τ ω) (v : τ) (w : ω) :
    ((RaiiWithInvalidValue.ctor T v).is_valid = true ↔ v ≠ T.invalid_value) ∧
    ((RaiiWithInvalidValue.ctor T v).toBool = (RaiiWithInvalidValue.ctor T v).is_valid) ∧
    (RaiiWithInvalidValue.ctor T v).get = v ∧
    (RaiiWithInvalidValue.ctorDefault T).get = T.invalid_value ∧
    (RaiiWithInvalidValue.ctorDefault T).is_valid = false ∧
    (RaiiWithInvalidValue.ctorDefault T).dtor w = w ∧
    RaiiWithInvalidValue.lifetime T v w = (if v = T.invalid_value then w else T.close v w) ∧
    RaiiWithInvalidValue.lifetime T.logged v (w, [])
      = (if v = T.invalid_value then (w, []) else (T.close v w, [v])) ∧
    ((RaiiWithInvalidValue.ctorDefault T.logged).dtor (w, [])).2 = [] := by
  refine ⟨?_, rfl, rfl, rfl, ?_, ?_, ?_, ?_, ?_⟩
  · simp [RaiiWithInvalidValue.is_valid, RaiiWithInvalidValue.ctor]
  · simp [RaiiWithInvalidValue.is_valid, RaiiWithInvalidValue.ctorDefault]
  · simp [RaiiWithInvalidValue.dtor, RaiiWithInvalidValue.is_valid,
      RaiiWithInvalidValue.ctorDefault]
  · by_cases h : v = T.invalid_value <;>
      simp [RaiiWithInvalidValue.lifetime, RaiiWithInvalidValue.dtor,
        RaiiWithInvalidValue.is_valid, RaiiWithInvalidValue.ctor, h]
  · by_cases h : v = T.invalid_value <;>
      simp [RaiiWithInvalidValue.lifetime, RaiiWithInvalidValue.dtor,
        RaiiWithInvalidValue.is_valid, RaiiWithInvalidValue.ctor, RaiiTraits.logged, h]
  · simp [RaiiWithInvalidValue.dtor, RaiiWithInvalidValue.is_valid,
      RaiiWithInvalidValue.ctorDefault, RaiiTraits.logged]

/-- C1: when `getPidHoldingFileLock` returns a vector, the verification calls in
its trace are those of one visit per element of the array the last, successful,
`RmGetList` call left; the vector holds exactly the identifiers of the visits
whose process was opened, whose times were obtained and whose creation time equals
the `ProcessStartTime` of the visited element, in order. So every
identifier returned comes from such a visit, and a visit whose creation time
differs from the element's contributes nothing. -/
theorem C1_only_verified_pids {σ : Type} (P : Platform σ) (fuel : Nat) (file : Path) (s : σ)
    (pids : List Int) (w : World σ)
    (h : getPidHoldingFileLock P fuel file s = some (Except.ok pids, w)) :
    ∃ (d : Nat) (gl : List Event) (visits : List Visit),
      w.2 = [Event.RmStartSession ERROR_SUCCESS d,
              Event.RmRegisterResources d [file] ERROR_SUCCESS] ++ gl
              ++ visits.flatMap Visit.events ++ closeSession d ∧
      GetListRun d 64 gl ERROR_SUCCESS (visits.map Visit.info) ∧
      (∀ v ∈ visits, v.answeredBy P) ∧
      pids = (visits.filter Visit.matched).map (fun v => toInt32 v.info.Process.dwProcessId) ∧
      (∀ x ∈ pids, ∃ v ∈ visits, v.hProcess ≠ 0 ∧ v.ok ≠ 0 ∧
        v.ftCreate = v.info.Process.ProcessStartTime ∧
        x = toInt32 v.info.Process.dwProcessId) ∧
      (∀ v ∈ visits, v.ftCreate ≠ v.info.Process.ProcessStartTime → v.matched = false) := by
  obtain ⟨d, gl, visits, htr, hgl, ha, hp⟩ := returned_shape P fuel file s pids w h
  refine ⟨d, gl, visits, htr, hgl, ha, hp, ?_, ?_⟩
  · intro x hx
    rw [hp] at hx
    obtain ⟨v, hv, rfl⟩ := List.mem_map.1 hx
    obtain ⟨hv1, hv2⟩ := List.mem_filter.1 hv
    obtain ⟨h1, h2, h3⟩ := (matched_iff v).1 hv2
    exact ⟨v, hv1, h1, h2, h3, rfl⟩
  · intro v _ hne
    simp [Visit.matched, hne]

set_option maxRecDepth 100000 in
/-- C1 at the platform `oneHolder`: the call returns `[4242]`. -/
theorem C1_only_verified_pids_witness :
    getPidHoldingFileLock oneHolder.platform 3 [99] 0
      = some (Except.ok [4242], (1, oneHolderTrace)) ∧
    ∃ (d : Nat) (gl : List Event) (visits : List Visit),
      oneHolderTrace = [Event.RmStartSession ERROR_SUCCESS d,
              Event.RmRegisterResources d [[99]] ERROR_SUCCESS] ++ gl
              ++ visits.flatMap Visit.events ++ closeSession d ∧
      GetListRun d 64 gl ERROR_SUCCESS (visits.map Visit.info) ∧
      (∀ v ∈ visits, v.answeredBy oneHolder.platform) ∧
      [4242] = (visits.filter Visit.matched).map
        (fun v => toInt32 v.info.Process.dwProcessId) ∧
      (∀ x ∈ ([4242] : List Int), ∃ v ∈ visits, v.hProcess ≠ 0 ∧ v.ok ≠ 0 ∧
        v.ftCreate = v.info.Process.ProcessStartTime ∧
        x = toInt32 v.info.Process.dwProcessId) ∧
      (∀ v ∈ visits, v.ftCreate ≠ v.info.Process.ProcessStartTime → v.matched = false) :=
  ⟨oneHolder_run, C1_only_verified_pids oneHolder.platform 3 [99] 0 [4242] (1, oneHolderTrace)
    oneHolder_run⟩

/-- C3, as amended: in every completed call in which session start succeeded and
issued the identifier `d`, whatever the way the call exits, `RmEndSession` is
called on `d` exactly once, as the last platform call, when `d` is not 0, and is
not called at all when `d` is 0 (the invalid value of `RmSessionRaiiTraits`);
it is never called on another identifier. -/
theorem C3_session_ended_once_unless_zero {σ : Type} (P : Platform σ) (fuel : Nat)
    (file : Path) (s : σ) (out : Except system_error (List Int)) (w : World σ) (d : Nat)
    (h : getPidHoldingFileLock P fuel file s = some (out, w))
    (hstart : Event.RmStartSession ERROR_SUCCESS d ∈ w.2) :
    w.2.count (Event.RmEndSession d) = (if d = 0 then 0 else 1) ∧
    (d ≠ 0 → w.2.getLast? = some (Event.RmEndSession d)) ∧
    (∀ d', d' ≠ d → Event.RmEndSession d' ∉ w.2) := by
  have hrun := getPidHoldingFileLock_run P fuel file s _ _ h
  rcases run_shape hrun with ⟨st, d', hst, htr⟩ | ⟨d', rs, mid, htr, hmid⟩
  · rw [htr] at hstart
    simp only [List.mem_singleton, Event.RmStartSession.injEq] at hstart
    exact absurd hstart.1.symm hst
  · rw [htr] at hstart ⊢
    have hd : d' = d := by
      simp only [List.mem_cons, List.mem_append] at hstart
      rcases hstart with he | he | hm | hc
      · injection he with _ hd
        exact hd.symm
      · cases he
      · exact absurd rfl ((hmid _ hm).1 _ _)
      · cases (mem_closeSession d' _ hc).2
    subst hd
    have hmid0 : ∀ x, Event.RmEndSession x ∉ mid := fun x hx => (hmid _ hx).2 x rfl
    refine ⟨?_, ?_, ?_⟩
    · rw [List.count_cons, List.count_cons, List.count_append,
        List.count_eq_zero.2 (hmid0 d')]
      by_cases hd0 : d' = 0 <;> simp [closeSession, hd0]
    · intro hd0
      have hc : closeSession d' = [Event.RmEndSession d'] := by simp [closeSession, hd0]
      rw [hc, ← List.cons_append, ← List.cons_append, List.getLast?_append]
      rfl
    · intro x hx hmem
      simp only [List.mem_cons, List.mem_append] at hmem
      rcases hmem with he | he | hm | hc
      · cases he
      · cases he
      · exact hmid0 x hm
      · have := (mem_closeSession d' _ hc).2
        simp only [Event.RmEndSession.injEq] at this
        exact hx this

/-- C3 at the platform `registerFails`: registration fails after session 7 was
issued, the exception is thrown and session 7 is ended once, last. -/
theorem C3_session_ended_once_unless_zero_witness :
    (getPidHoldingFileLock registerFails.platform 3 [99] 0
      = some (Except.error ⟨5, "RmRegisterResources failed"⟩,
          (0, [Event.RmStartSession 0 7, Event.RmRegisterResources 7 [[99]] 5,
                Event.RmEndSession 7]))) ∧
    List.count (Event.RmEndSession 7)
      [Event.RmStartSession 0 7, Event.RmRegisterResources 7 [[99]] 5, Event.RmEndSession 7]
      = (if 7 = 0 then 0 else 1) ∧
    ((7 : Nat) ≠ 0 → List.getLast?
      [Event.RmStartSession 0 7, Event.RmRegisterResources 7 [[99]] 5, Event.RmEndSession 7]
      = some (Event.RmEndSession 7)) ∧
    (∀ d', d' ≠ 7 → Event.RmEndSession d' ∉
      [Event.RmStartSession 0 7, Event.RmRegisterResources 7 [[99]] 5, Event.RmEndSession 7]) :=
  ⟨by rfl, C3_session_ended_once_unless_zero registerFails.platform 3 [99] 0
    (Except.error ⟨5, "RmRegisterResources failed"⟩)
    (0, [Event.RmStartSession 0 7, Event.RmRegisterResources 7 [[99]] 5, Event.RmEndSession 7])
    7 (by rfl) (by decide)⟩

set_option maxRecDepth 100000 in
/-- C3 as stated fails for the session identifier 0: at the platform `sessionZero`
session start succeeds and issues 0, the call returns `[4242]`, and its trace holds
no `RmEndSession` call at all. -/
theorem C3_counterexample :
    (getPidHoldingFileLock sessionZero.platform 3 [99] 0).map
        (fun r => (r.1, r.2.2.head?, r.2.2.count (Event.RmEndSession 0),
          r.2.2.filter (fun e => e matches Event.RmEndSession _)))
      = some (Except.ok [4242], some (Event.RmStartSession ERROR_SUCCESS 0), 0, []) ∧
    (0 : Nat) < UINT_RANGE :=
  ⟨by rfl, by decide⟩

/-- C7, as amended: every element of the returned vector is the 32-bit signed
reading of the identifier of the visited element it was taken from: the identifier
itself, non-negative, when the identifier is below `2 ^ 31`, and the identifier
minus `2 ^ 32`, negative, when it is `2 ^ 31` or more. -/
theorem C7_pids_are_int32 {σ : Type} (P : Platform σ) (fuel : Nat) (file : Path) (s : σ)
    (pids : List Int) (w : World σ)
    (h : getPidHoldingFileLock P fuel file s = some (Except.ok pids, w)) :
    ∃ (d : Nat) (gl : List Event) (visits : List Visit),
      w.2 = [Event.RmStartSession ERROR_SUCCESS d,
              Event.RmRegisterResources d [file] ERROR_SUCCESS] ++ gl
              ++ visits.flatMap Visit.events ++ closeSession d ∧
      pids = (visits.filter Visit.matched).map
        (fun v => toInt32 v.info.Process.dwProcessId) ∧
      ∀ x ∈ pids, ∃ v ∈ visits, v.matched = true ∧
        x = toInt32 v.info.Process.dwProcessId ∧
        -2147483648 ≤ x ∧ x < 2147483648 ∧
        (v.info.Process.dwProcessId < 2147483648 →
          x = (v.info.Process.dwProcessId : Int) ∧ 0 ≤ x) ∧
        (2147483648 ≤ v.info.Process.dwProcessId → v.info.Process.dwProcessId < UINT_RANGE →
          x = (v.info.Process.dwProcessId : Int) - 4294967296 ∧ x < 0) := by
  obtain ⟨d, gl, visits, htr, _, _, hp⟩ := returned_shape P fuel file s pids w h
  refine ⟨d, gl, visits, htr, hp, ?_⟩
  intro x hx
  rw [hp] at hx
  obtain ⟨v, hv, rfl⟩ := List.mem_map.1 hx
  obtain ⟨hv1, hv2⟩ := List.mem_filter.1 hv
  refine ⟨v, hv1, hv2, rfl, (toInt32_bounds _).1, (toInt32_bounds _).2, ?_, ?_⟩
  · intro hlt
    rw [toInt32_of_lt _ hlt]
    exact ⟨rfl, Int.natCast_nonneg _⟩
  · intro hge hlt
    rw [toInt32_of_ge _ hge hlt]
    unfold UINT_RANGE at hlt
    exact ⟨rfl, by omega⟩

set_option maxRecDepth 100000 in
/-- C7 at the platform `oneHolder`. -/
theorem C7_pids_are_int32_witness :
    getPidHoldingFileLock oneHolder.platform 3 [99] 0
      = some (Except.ok [4242], (1, oneHolderTrace)) ∧
    ∃ (d : Nat) (gl : List Event) (visits : List Visit),
      oneHolderTrace = [Event.RmStartSession ERROR_SUCCESS d,
              Event.RmRegisterResources d [[99]] ERROR_SUCCESS] ++ gl
              ++ visits.flatMap Visit.events ++ closeSession d ∧
      [4242] = (visits.filter Visit.matched).map
        (fun v => toInt32 v.info.Process.dwProcessId) ∧
      ∀ x ∈ ([4242] : List Int), ∃ v ∈ visits, v.matched = true ∧
        x = toInt32 v.info.Process.dwProcessId ∧
        -2147483648 ≤ x ∧ x < 2147483648 ∧
        (v.info.Process.dwProcessId < 2147483648 →
          x = (v.info.Process.dwProcessId : Int) ∧ 0 ≤ x) ∧
        (2147483648 ≤ v.info.Process.dwProcessId → v.info.Process.dwProcessId < UINT_RANGE →
          x = (v.info.Process.dwProcessId : Int) - 4294967296 ∧ x < 0) :=
  ⟨oneHolder_run, C7_pids_are_int32 oneHolder.platform 3 [99] 0 [4242] (1, oneHolderTrace)
    oneHolder_run⟩

set_option maxRecDepth 100000 in
/-- C7 as stated fails for the identifier `2 ^ 31`: at the platform `bigPid` the
service reports the holder 2147483648, the process verifies, and the vector
returned is `[-2147483648]`. -/
theorem C7_counterexample :
    bigPid.getList.map (fun r => r.rgAffectedApps.map (fun i => i.Process.dwProcessId))
      = [[2147483648]] ∧
    (2147483648 : Nat) < UINT_RANGE ∧
    (getPidHoldingFileLock bigPid.platform 3 [99] 0).map Prod.fst
      = some (Except.ok [-2147483648]) ∧
    (-2147483648 : Int) < 0 ∧ (-2147483648 : Int) ≠ ((2147483648 : Nat) : Int) :=
  ⟨by rfl, by decide, by rfl, by decide, by decide⟩

/-- C2: when `getPidHoldingFileLock` returns a vector (session start, registration
and enumeration succeeded), the verification loop visited every element of the
array left by the successful `RmGetList` call, in particular each of the first
`written` elements, which the service reported; every visit whose process was
opened, whose times were obtained and whose creation time equals the
`ProcessStartTime` of the element has the identifier of the element in the vector
(as the `int` it is stored as, as the same number when below `2 ^ 31`, and as
found by the `std::find` of the test). In particular, when the service reports
a record of `currentPid` with start time `start` and the platform, in whatever
state, opens `currentPid` and reports `start` as its creation time, the vector
contains `currentPid`. -/
theorem C2_verified_records_are_returned {σ : Type} (P : Platform σ) (fuel : Nat)
    (file : Path) (s : σ) (pids : List Int) (w : World σ)
    (h : getPidHoldingFileLock P fuel file s = some (Except.ok pids, w)) :
    ∃ (d : Nat) (pre : List Event) (cap needed written : Nat) (visits : List Visit),
      w.2 = [Event.RmStartSession ERROR_SUCCESS d,
              Event.RmRegisterResources d [file] ERROR_SUCCESS] ++ pre
              ++ [Event.RmGetList d cap ERROR_SUCCESS needed written (visits.map Visit.info)]
              ++ visits.flatMap Visit.events ++ closeSession d ∧
      (∀ v ∈ visits, v.answeredBy P) ∧
      (∀ info ∈ (visits.map Visit.info).take written, ∃ v ∈ visits, v.info = info) ∧
      (∀ v ∈ visits, v.hProcess ≠ 0 → v.ok ≠ 0 →
        v.ftCreate = v.info.Process.ProcessStartTime →
        toInt32 v.info.Process.dwProcessId ∈ pids ∧
        (v.info.Process.dwProcessId < 2147483648 →
          (v.info.Process.dwProcessId : Int) ∈ pids) ∧
        (v.info.Process.dwProcessId < UINT_RANGE →
          containsPid pids v.info.Process.dwProcessId = true)) ∧
      (∀ (currentPid : Nat) (start : FILETIME), currentPid < UINT_RANGE →
        (⟨⟨currentPid, start⟩⟩ : RM_PROCESS_INFO) ∈ (visits.map Visit.info).take written →
        (∀ s' : σ,
          (P.OpenProcess s' PROCESS_QUERY_LIMITED_INFORMATION currentPid).1 ≠ 0 ∧
          (P.GetProcessTimes (P.OpenProcess s' PROCESS_QUERY_LIMITED_INFORMATION currentPid).2
            (P.OpenProcess s' PROCESS_QUERY_LIMITED_INFORMATION currentPid).1).1.1 ≠ 0 ∧
          (P.GetProcessTimes (P.OpenProcess s' PROCESS_QUERY_LIMITED_INFORMATION currentPid).2
            (P.OpenProcess s' PROCESS_QUERY_LIMITED_INFORMATION currentPid).1).1.2 = start) →
        containsPid pids currentPid = true) := by
  obtain ⟨d, gl, visits, htr, hgl, ha, hp⟩ := returned_shape P fuel file s pids w h
  obtain ⟨_, pre, cap, needed, written, hpre, _⟩ := getListRun_last hgl
  have hvisit : ∀ info ∈ (visits.map Visit.info).take written, ∃ v ∈ visits, v.info = info := by
    intro info hinfo
    obtain ⟨v, hv, hvi⟩ := List.mem_map.1 (List.mem_of_mem_take hinfo)
    exact ⟨v, hv, hvi⟩
  have hpush : ∀ v ∈ visits, v.hProcess ≠ 0 → v.ok ≠ 0 →
      v.ftCreate = v.info.Process.ProcessStartTime →
      toInt32 v.info.Process.dwProcessId ∈ pids := by
    intro v hv h1 h2 h3
    rw [hp]
    exact List.mem_map.2 ⟨v, List.mem_filter.2 ⟨hv, (matched_iff v).2 ⟨h1, h2, h3⟩⟩, rfl⟩
  refine ⟨d, pre, cap, needed, written, visits, ?_, ha, hvisit, ?_, ?_⟩
  · rw [htr, hpre]
    simp only [List.append_assoc]
  · intro v hv h1 h2 h3
    have hmem := hpush v hv h1 h2 h3
    refine ⟨hmem, ?_, ?_⟩
    · intro hlt
      rw [← toInt32_of_lt _ hlt]
      exact hmem
    · intro hlt
      exact containsPid_of_mem pids _ hlt hmem
  · intro currentPid start hlt hrep hlive
    obtain ⟨v, hv, hvi⟩ := hvisit _ hrep
    obtain ⟨s', ho, ht⟩ := ha v hv
    have hpid : v.info.Process.dwProcessId = currentPid := by rw [hvi]
    have hst : v.info.Process.ProcessStartTime = start := by rw [hvi]
    rw [hpid] at ho ht
    obtain ⟨l1, l2, l3⟩ := hlive s'
    have h1 : v.hProcess ≠ 0 := by rw [← ho]; exact l1
    have ht' := ht h1
    rw [← ho] at ht'
    have h2 : v.ok ≠ 0 := by
      have := congrArg Prod.fst ht'
      simp only at this
      rw [← this]
      exact l2
    have h3 : v.ftCreate = v.info.Process.ProcessStartTime := by
      have := congrArg Prod.snd ht'
      simp only at this
      rw [← this, hst]
      exact l3
    have hmem := hpush v hv h1 h2 h3
    rw [hpid] at hmem
    exact containsPid_of_mem pids _ hlt hmem

set_option maxRecDepth 100000 in
/-- C2 at the platform `oneHolder`: process 4242 holds the file and is returned. -/
theorem C2_verified_records_are_returned_witness :
    getPidHoldingFileLock oneHolder.platform 3 [99] 0
      = some (Except.ok [4242], (1, oneHolderTrace)) ∧
    ∃ (d : Nat) (pre : List Event) (cap needed written : Nat) (visits : List Visit),
      oneHolderTrace = [Event.RmStartSession ERROR_SUCCESS d,
              Event.RmRegisterResources d [[99]] ERROR_SUCCESS] ++ pre
              ++ [Event.RmGetList d cap ERROR_SUCCESS needed written (visits.map Visit.info)]
              ++ visits.flatMap Visit.events ++ closeSession d ∧
      (∀ v ∈ visits, v.answeredBy oneHolder.platform) ∧
      (∀ info ∈ (visits.map Visit.info).take written, ∃ v ∈ visits, v.info = info) ∧
      (∀ v ∈ visits, v.hProcess ≠ 0 → v.ok ≠ 0 →
        v.ftCreate = v.info.Process.ProcessStartTime →
        toInt32 v.info.Process.dwProcessId ∈ ([4242] : List Int) ∧
        (v.info.Process.dwProcessId < 2147483648 →
          (v.info.Process.dwProcessId : Int) ∈ ([4242] : List Int)) ∧
        (v.info.Process.dwProcessId < UINT_RANGE →
          containsPid [4242] v.info.Process.dwProcessId = true)) ∧
      (∀ (currentPid : Nat) (start : FILETIME), currentPid < UINT_RANGE →
        (⟨⟨currentPid, start⟩⟩ : RM_PROCESS_INFO) ∈ (visits.map Visit.info).take written →
        (∀ s' : Nat,
          (oneHolder.platform.OpenProcess s' PROCESS_QUERY_LIMITED_INFORMATION currentPid).1
            ≠ 0 ∧
          (oneHolder.platform.GetProcessTimes
            (oneHolder.platform.OpenProcess s' PROCESS_QUERY_LIMITED_INFORMATION currentPid).2
            (oneHolder.platform.OpenProcess s' PROCESS_QUERY_LIMITED_INFORMATION
              currentPid).1).1.1 ≠ 0 ∧
          (oneHolder.platform.GetProcessTimes
            (oneHolder.platform.OpenProcess s' PROCESS_QUERY_LIMITED_INFORMATION currentPid).2
            (oneHolder.platform.OpenProcess s' PROCESS_QUERY_LIMITED_INFORMATION
              currentPid).1).1.2 = start) →
        containsPid [4242] currentPid = true) :=
  ⟨oneHolder_run, C2_verified_records_are_returned oneHolder.platform 3 [99] 0 [4242]
    (1, oneHolderTrace) oneHolder_run⟩

/-- C10, as amended: in every completed call, the first `RmGetList` call offers a
capacity of 128 entries; every `RmGetList` call passes an array exactly as long
as the capacity it offers; and a call answered `ERROR_MORE_DATA` with needed-count
`n` is followed by a call that offers `2 * n mod 2 ^ 32` entries, which is
`2 * n`, and at least `n`, whenever `n < 2 ^ 31`. -/
theorem C10_capacity_sequence {σ : Type} (P : Platform σ) (fuel : Nat) (file : Path)
    (s : σ) (out : Except system_error (List Int)) (w : World σ)
    (h : getPidHoldingFileLock P fuel file s = some (out, w)) :
    (∀ c, (getListCalls w.2).head? = some c → c.nProcInfoIn = 128) ∧
    (∀ c ∈ getListCalls w.2, c.arrayLength = c.nProcInfoIn) ∧
    (∀ i c, (getListCalls w.2)[i]? = some c → c.dwError = ERROR_MORE_DATA →
      ∃ c', (getListCalls w.2)[i + 1]? = some c' ∧
        c'.nProcInfoIn = (2 * c.nProcInfoNeeded) % UINT_RANGE ∧
        c'.arrayLength = c'.nProcInfoIn ∧
        (c.nProcInfoNeeded < 2147483648 →
          c'.nProcInfoIn = 2 * c.nProcInfoNeeded ∧ c.nProcInfoNeeded ≤ c'.nProcInfoIn)) := by
  have hrun := getPidHoldingFileLock_run P fuel file s _ _ h
  rcases run_getListCalls hrun with hnil | ⟨d, gl, dwError, rgpi, hgl, hcalls⟩
  · rw [hnil]
    simp
  · rw [hcalls]
    obtain ⟨⟨c0, rest, hc0, hcap0⟩, hlen, hchain⟩ := getListRun_calls hgl
    refine ⟨?_, hlen, ?_⟩
    · intro c hc
      rw [hc0] at hc
      simp only [List.head?_cons, Option.some.injEq] at hc
      rw [← hc, hcap0]
      rfl
    · intro i c hc hmore
      obtain ⟨c', hc', hcap'⟩ := hchain i c hc hmore
      refine ⟨c', hc', hcap', hlen c' (List.getElem?_mem hc'), ?_⟩
      intro hlt
      rw [hcap']
      unfold UINT_RANGE
      omega

set_option maxRecDepth 100000 in
/-- C10 at the platform `leftOver`: the capacities offered are 128, then 260 after
the needed-count 130 was reported. -/
theorem C10_capacity_sequence_witness :
    getPidHoldingFileLock leftOver.platform 3 [99] 0
      = some (Except.ok [4343, 4242], (2, leftOverTrace)) ∧
    (∀ c, (getListCalls leftOverTrace).head? = some c → c.nProcInfoIn = 128) ∧
    (∀ c ∈ getListCalls leftOverTrace, c.arrayLength = c.nProcInfoIn) ∧
    (∀ i c, (getListCalls leftOverTrace)[i]? = some c → c.dwError = ERROR_MORE_DATA →
      ∃ c', (getListCalls leftOverTrace)[i + 1]? = some c' ∧
        c'.nProcInfoIn = (2 * c.nProcInfoNeeded) % UINT_RANGE ∧
        c'.arrayLength = c'.nProcInfoIn ∧
        (c.nProcInfoNeeded < 2147483648 →
          c'.nProcInfoIn = 2 * c.nProcInfoNeeded ∧ c.nProcInfoNeeded ≤ c'.nProcInfoIn)) :=
  ⟨leftOver_run, C10_capacity_sequence leftOver.platform 3 [99] 0 (Except.ok [4343, 4242])
    (2, leftOverTrace) leftOver_run⟩

set_option maxRecDepth 100000 in
/-- C10 as stated fails for the needed-count `2 ^ 31`: at the platform `hugeNeeded`
the first call, of capacity 128, is answered `ERROR_MORE_DATA` with needed-count
2147483648, and the next call offers a capacity of 0 entries, which is neither
twice the needed-count nor at least the needed-count. -/
theorem C10_counterexample :
    (getPidHoldingFileLock hugeNeeded.platform 3 [99] 0).map (fun r => getListCalls r.2.2)
      = some [⟨128, ERROR_MORE_DATA, 2147483648, 0, 128⟩, ⟨0, ERROR_SUCCESS, 0, 0, 0⟩] ∧
    (2147483648 : Nat) < UINT_RANGE ∧ (0 : Nat) ≠ 2 * 2147483648 ∧ (0 : Nat) < 2147483648 :=
  ⟨by rfl, by decide, by decide, by decide⟩

set_option maxRecDepth 100000 in
/-- C9 fails on the code: at the platform `leftOver` the last, successful,
`RmGetList` call reports one record written (process 4343) into an array of 260
entries, yet the verification loop runs over all 260 entries: it opens and verifies
process 4242, whose record was left in the array by the earlier, too small,
attempt, returns its identifier, and calls `OpenProcess` on identifier 0 for each
of the 258 zero-initialised entries. -/
theorem C9_whole_array_examined :
    getPidHoldingFileLock leftOver.platform 3 [99] 0
      = some (Except.ok [4343, 4242], (2, leftOverTrace)) ∧
    (getListCalls leftOverTrace).getLast? = some ⟨260, ERROR_SUCCESS, 1, 1, 260⟩ ∧
    Event.OpenProcess 4242 100 ∈ leftOverTrace ∧
    leftOverTrace.count (Event.OpenProcess 0 0) = 258 ∧
    (leftOverTrace.filter (fun e => e matches Event.OpenProcess _ _)).length = 260 :=
  ⟨leftOver_run, by rfl, by decide, by rfl, by rfl⟩

set_option maxRecDepth 100000 in
/-- C6 fails on the code. At the platform `nothingWritten` session start and
registration succeed and the first `RmGetList` call succeeds reporting zero
records written, yet the verification loop runs over the 128 zero-initialised
entries of the array, the platform opens identifier 0 and reports the creation
time `(0, 0)`, and the vector returned holds 128 zeros. At the platform
`holderGone`, where identifier 0 cannot be opened, the successful call reports
zero records written as well, yet the vector returned is `[4242]`, from the
record an earlier, too small, attempt left in the array. -/
theorem C6_zero_written_not_empty :
    getPidHoldingFileLock nothingWritten.platform 3 [99] 0
      = some (Except.ok (List.replicate 128 0),
          (1, [Event.RmStartSession 0 7, Event.RmRegisterResources 7 [[99]] 0,
                Event.RmGetList 7 128 ERROR_SUCCESS 0 0 (List.replicate 128 default)]
              ++ (List.replicate 128 [Event.OpenProcess 0 100,
                    Event.GetProcessTimes 100 1 ⟨0, 0⟩, Event.CloseHandle 100]).flatten
              ++ [Event.RmEndSession 7])) ∧
    (List.replicate 128 (0 : Int)) ≠ [] ∧
    getPidHoldingFileLock holderGone.platform 3 [99] 0
      = some (Except.ok [4242],
          (2, [Event.RmStartSession 0 7, Event.RmRegisterResources 7 [[99]] 0,
                Event.RmGetList 7 128 ERROR_MORE_DATA 130 1
                  (⟨⟨4242, ⟨5, 1⟩⟩⟩ :: List.replicate 127 default),
                Event.RmGetList 7 260 ERROR_SUCCESS 0 0
                  (⟨⟨4242, ⟨5, 1⟩⟩⟩ :: List.replicate 259 default),
                Event.OpenProcess 4242 100, Event.GetProcessTimes 100 1 ⟨5, 1⟩,
                Event.CloseHandle 100]
              ++ List.replicate 259 (Event.OpenProcess 0 0) ++ [Event.RmEndSession 7])) :=
  ⟨by rfl, by decide, by rfl⟩

/-- C5, as amended: for every service that answers `ERROR_MORE_DATA` only when the
capacity offered is below its current required count, then reports that count as
the needed-count, and whose required count never exceeds `F < 2 ^ 31` (it may grow
from call to call), `getPidHoldingFileLock` completes with any fuel of 25 or more:
the enumeration loop terminates. The number `k` of `ERROR_MORE_DATA` replies
received is 0 or satisfies `128 * 2 ^ (k - 1) < F`; so `k = 0` when `F ≤ 128`, and
`k ≤ 1` when the required count is constant. -/
theorem C5_enumeration_terminates {σ : Type} (P : Platform σ) (required : σ → Nat) (F : Nat)
    (hF : F < 2147483648)
    (hsvc : ∀ (s : σ) (d cap : Nat) (rgpi : List RM_PROCESS_INFO), required s ≤ F ∧
      ((P.RmGetList s d cap rgpi).1.dwError = ERROR_MORE_DATA →
        cap < required s ∧ (P.RmGetList s d cap rgpi).1.nProcInfoNeeded = required s))
    (fuel : Nat) (hfuel : 25 ≤ fuel) (file : Path) (s : σ) :
    ∃ out w, getPidHoldingFileLock P fuel file s = some (out, w) ∧
      (1 ≤ moreDataReplies w.2 → 128 * 2 ^ (moreDataReplies w.2 - 1) < F) ∧
      (F ≤ 128 → moreDataReplies w.2 = 0) ∧
      ((∀ s s', required s = required s') → moreDataReplies w.2 ≤ 1) := by
  have key : ∃ out w, getPidHoldingFileLock P fuel file s = some (out, w) ∧
      (1 ≤ moreDataReplies w.2 → 128 * 2 ^ (moreDataReplies w.2 - 1) < F) ∧
      ((∀ s s', required s = required s') → moreDataReplies w.2 ≤ 1) := by
    rcases hs : P.RmStartSession s with ⟨⟨st, d⟩, s1⟩
    by_cases hst : st = ERROR_SUCCESS
    · subst hst
      rcases hreg : P.RmRegisterResources s1 d [file] with ⟨rs, s2⟩
      by_cases hrs : rs = ERROR_SUCCESS
      · subst hrs
        obtain ⟨dwError, rgpi, w2, gl, hloop, htr, hbound, hconst⟩ :=
          rmGetListLoop_terminates P required F hF hsvc d fuel 0 64 []
            (s2, [Event.RmStartSession ERROR_SUCCESS d,
              Event.RmRegisterResources d [file] ERROR_SUCCESS])
            (by unfold UINT_RANGE; norm_num) (by omega)
        have hk2 : moreDataReplies w2.2 = moreDataReplies gl := by
          rw [htr, moreDataReplies_append]
          simp [moreDataReplies, getListCalls, getListCall]
        by_cases herr : dwError = ERROR_SUCCESS
        · subst herr
          obtain ⟨visits, _, _, hvt, _⟩ := verifyLoop_spec P rgpi w2 []
          refine ⟨Except.ok (verifyLoop P rgpi w2 []).2,
            (RaiiWithInvalidValue.ctor (RmSessionRaiiTraits P) d).dtor
              (verifyLoop P rgpi w2 []).1, ?_, ?_⟩
          · simp only [getPidHoldingFileLock, createRmSession, hs, ne_eq, not_true_eq_false,
              if_false, get_ctor, hreg, List.nil_append]
            rw [show [Event.RmStartSession ERROR_SUCCESS d] ++
                [Event.RmRegisterResources d [file] ERROR_SUCCESS]
              = [Event.RmStartSession ERROR_SUCCESS d,
                  Event.RmRegisterResources d [file] ERROR_SUCCESS] from rfl, hloop]
            simp
          · have hk : moreDataReplies ((RaiiWithInvalidValue.ctor (RmSessionRaiiTraits P) d).dtor
                (verifyLoop P rgpi w2 []).1).2 = moreDataReplies gl := by
              rw [dtor_session_trace, hvt, moreDataReplies_append, moreDataReplies_append, hk2,
                moreDataReplies_of_calls_nil _ (getListCalls_visits visits),
                moreDataReplies_of_calls_nil _ (getListCalls_closeSession d)]
              omega
            rw [hk]
            exact ⟨by simpa using hbound, fun hc => (hconst hc).1⟩
        · refine ⟨Except.error (throwLastError P ("RmGetList failed") w2),
            (RaiiWithInvalidValue.ctor (RmSessionRaiiTraits P) d).dtor w2, ?_, ?_⟩
          · simp only [getPidHoldingFileLock, createRmSession, hs, ne_eq, not_true_eq_false,
              if_false, get_ctor, hreg, List.nil_append]
            rw [show [Event.RmStartSession ERROR_SUCCESS d] ++
                [Event.RmRegisterResources d [file] ERROR_SUCCESS]
              = [Event.RmStartSession ERROR_SUCCESS d,
                  Event.RmRegisterResources d [file] ERROR_SUCCESS] from rfl, hloop]
            simp [herr]
          · have hk : moreDataReplies ((RaiiWithInvalidValue.ctor (RmSessionRaiiTraits P) d).dtor
                w2).2 = moreDataReplies gl := by
              rw [dtor_session_trace, moreDataReplies_append, hk2,
                moreDataReplies_of_calls_nil _ (getListCalls_closeSession d)]
              omega
            rw [hk]
            exact ⟨by simpa using hbound, fun hc => (hconst hc).1⟩
      · refine ⟨Except.error (throwLastError P ("RmRegisterResources failed")
            (s2, [Event.RmStartSession ERROR_SUCCESS d, Event.RmRegisterResources d [file] rs])),
          (RaiiWithInvalidValue.ctor (RmSessionRaiiTraits P) d).dtor
            (s2, [Event.RmStartSession ERROR_SUCCESS d, Event.RmRegisterResources d [file] rs]),
          ?_, ?_⟩
        · simp [getPidHoldingFileLock, createRmSession, hs, get_ctor, hreg, hrs]
        · have hk : moreDataReplies ((RaiiWithInvalidValue.ctor (RmSessionRaiiTraits P) d).dtor
              (s2, [Event.RmStartSession ERROR_SUCCESS d,
                Event.RmRegisterResources d [file] rs])).2 = 0 := by
            rw [dtor_session_trace, moreDataReplies_append,
              moreDataReplies_of_calls_nil _ (getListCalls_closeSession d)]
            simp [moreDataReplies, getListCalls, getListCall]
          rw [hk]
          exact ⟨by omega, fun _ => by omega⟩
    · refine ⟨Except.error (throwLastError P ("RmStartSession failed")
          (s1, [Event.RmStartSession st d])), (s1, [Event.RmStartSession st d]), ?_, ?_⟩
      · simp [getPidHoldingFileLock, createRmSession, hs, hst]
      · have hk : moreDataReplies [Event.RmStartSession st d] = 0 := by
          simp [moreDataReplies, getListCalls, getListCall]
        simp only [hk]
        exact ⟨by omega, fun _ => by omega⟩
  obtain ⟨out, w, hrun, hbound, hconst⟩ := key
  refine ⟨out, w, hrun, hbound, ?_, hconst⟩
  intro hsmall
  by_contra hne
  have h1 := hbound (by omega)
  have h2 : 1 ≤ 2 ^ (moreDataReplies w.2 - 1) := Nat.one_le_two_pow
  omega

set_option maxRecDepth 100000 in
/-- C5 at the service `growing`, whose required count grows from 129 to 259
between the first two calls: the enumeration loop ends after two
`ERROR_MORE_DATA` replies, with capacities 128, 258 and 518, and
`128 * 2 ^ (2 - 1) = 256 < 259`. -/
theorem C5_enumeration_terminates_witness :
    (259 < 2147483648 ∧ 25 ≤ 25) ∧
    (rmGetListLoop growing (RaiiWithInvalidValue.ctor (RmSessionRaiiTraits growing) 7)
        25 64 [] (0, [])).map
        (fun r => (r.1, (getListCalls r.2.2.2).map GetListCall.nProcInfoIn,
          moreDataReplies r.2.2.2))
      = some (ERROR_SUCCESS, [128, 258, 518], 2) ∧
    ∃ out w, getPidHoldingFileLock growing 25 [99] 0 = some (out, w) ∧
      (1 ≤ moreDataReplies w.2 → 128 * 2 ^ (moreDataReplies w.2 - 1) < 259) ∧
      (259 ≤ 128 → moreDataReplies w.2 = 0) ∧
      ((∀ s s', growingRequired s = growingRequired s') → moreDataReplies w.2 ≤ 1) :=
  ⟨⟨by decide, by decide⟩, by rfl,
    C5_enumeration_terminates growing growingRequired 259 (by decide)
      (fun s d cap rgpi => by
        refine ⟨by unfold growingRequired; split <;> decide, ?_⟩
        by_cases hc : cap < growingRequired s
        · simp [growing, hc]
        · simp [growing, hc, ERROR_MORE_DATA, ERROR_SUCCESS])
      25 (by decide) [99] 0⟩

set_option maxRecDepth 100000 in
/-- C5 as stated fails when no `ERROR_MORE_DATA` reply is received and `F` is small:
the service `needsOne` meets the conditions of the claim with `F = 1`, the call
completes with `k = 0` replies of that kind, and `128 * 2 ^ (k - 1) < F` is false
there, whether the exponent `0 - 1` is read as `-1` or truncated to `0`. -/
theorem C5_counterexample :
    (∀ (s d cap : Nat) (rgpi : List RM_PROCESS_INFO), (1 : Nat) ≤ 1 ∧
      ((needsOne.RmGetList s d cap rgpi).1.dwError = ERROR_MORE_DATA →
        cap < 1 ∧ (needsOne.RmGetList s d cap rgpi).1.nProcInfoNeeded = 1)) ∧
    (1 : Nat) < 2147483648 ∧
    (getPidHoldingFileLock needsOne 25 [99] 0).map (fun r => (r.1, moreDataReplies r.2.2))
      = some (Except.ok [], 0) ∧
    ¬ ((128 : ℚ) * 2 ^ (((0 : Nat) : ℤ) - 1) < ((1 : Nat) : ℚ)) ∧
    ¬ (128 * 2 ^ (0 - 1) < 1) := by
  refine ⟨?_, by decide, by rfl, by norm_num, by decide⟩
  intro s d cap rgpi
  refine ⟨le_refl 1, ?_⟩
  rcases Nat.eq_zero_or_pos cap with h0 | hpos
  · subst h0
    simp [needsOne]
  · have hne : cap ≠ 0 := by omega
    simp [needsOne, hne, ERROR_MORE_DATA, ERROR_SUCCESS]

end Loom
